import Mathlib

/-!
# DoomRunner: executable version-info reader, its cache, and the engine dialog

A shallow embedding of `Sources/Utils/ExeReader.cpp`, `Sources/Utils/FileInfoCache.cpp`
and of `EngineDialog::accept` of `Sources/Dialogs/EngineDialog.cpp`. What these files use
and the sources do not contain is modelled from the specification and marked so.

* Machine integers (`WORD`, `DWORD`, `UINT`) are natural numbers; where the width
  matters the bound is an explicit hypothesis.
* Handles (`HMODULE`, `HRSRC`, `HGLOBAL`) are natural numbers, `0` being the null handle.
* Data pointers are `Option`s of what they point to, `none` being `nullptr`; a pointer to
  an array is an `Option` of an index function.
* The operating system is an explicit record of answers (`WinApi`); every function that
  calls it returns its result together with the list of OS calls it made, in order.
* Log messages are left out, and with them the arguments that only feed them (the
  `filePath` of `getResource`): they influence no result.
-/

namespace DoomRunner

/-! ## Read status (FileInfoCache) -/

/-- Modelled from the spec: the enumeration `ReadStatus` is declared in
`FileInfoCache.hpp`, which is not among the sources. The enumerators are those of the data
model: `Success`, `CantOpen`, `FailedToRead`, `InvalidFormat`, `InfoNotPresent`,
`NotSupported`, `Uninitialized`. Their order is the one the static assertion of
`FileInfoCache.cpp` admits: the five names of the table `ReadStatusStrings` first, then
`Uninitialized`, whose integer value has to be the size of the table, and `NotSupported`
after it. -/
inductive ReadStatus
  | Success
  | CantOpen
  | FailedToRead
  | InvalidFormat
  | InfoNotPresent
  | Uninitialized
  | NotSupported
  deriving DecidableEq, Repr, Inhabited

namespace ReadStatus

/-- The integer value of an enumerator, `size_t(status)`: its position in the
declaration. -/
def toOrdinal : ReadStatus → Nat
  | Success => 0
  | CantOpen => 1
  | FailedToRead => 2
  | InvalidFormat => 3
  | InfoNotPresent => 4
  | Uninitialized => 5
  | NotSupported => 6

/-- The named enumerator with a given integer value, if there is one. The cast
`ReadStatus( idx )` itself yields the raw value; this tells which enumerator, if any, the
raw value is. -/
def ofOrdinal? : Int → Option ReadStatus
  | 0 => some Success
  | 1 => some CantOpen
  | 2 => some FailedToRead
  | 3 => some InvalidFormat
  | 4 => some InfoNotPresent
  | 5 => some Uninitialized
  | 6 => some NotSupported
  | _ => none

end ReadStatus

/-- The table `ReadStatusStrings` of `FileInfoCache.cpp`. -/
def ReadStatusStrings : List String :=
  [ "Success"
  , "CantOpen"
  , "FailedToRead"
  , "InvalidFormat"
  , "InfoNotPresent"
  ]

/-- Modelled from the spec: the helper `find( container, value )` lives in a utility header
that is not among the sources. As its caller assumes (`idx >= 0` means found), it gives
the index of the first element equal to the value, and `-1` when there is none. -/
def find (list : List String) (value : String) : Int :=
  match list.indexOf? value with
  | some idx => (idx : Int)
  | none => -1

/-- The function `statusToStr`: the table entry at the status's integer value, or
`"<invalid>"` when the value is not below the size of the table. -/
def statusToStrOrd (status : Nat) : String :=
  if h : status < ReadStatusStrings.length then
    ReadStatusStrings.get ⟨status, h⟩
  else
    "<invalid>"

/-- The function `statusToStr` on an enumerator. -/
def statusToStr (status : ReadStatus) : String :=
  statusToStrOrd status.toOrdinal

/-- The function `statusFromStr`, as the raw integer value of the status it returns:
`ReadStatus( idx )` when the string is found, `ReadStatus::Uninitialized` otherwise. -/
def statusFromStrOrd (statusStr : String) : Int :=
  let idx := find ReadStatusStrings statusStr
  if idx ≥ 0 then
    idx
  else
    (ReadStatus.Uninitialized.toOrdinal : Int)

/-- The function `statusFromStr` on enumerators: `none` would mean that the returned raw
value is not the value of any enumerator. -/
def statusFromStr (statusStr : String) : Option ReadStatus :=
  ReadStatus.ofOrdinal? (statusFromStrOrd statusStr)

/-! ## Result types (ExeReader) -/

/-- Modelled from the spec: the type `Version` is declared in a header that is not among
the sources. It is the four-component tuple (major, minor, patch, build) of unsigned
16-bit values of the data model, all zero by default. -/
structure Version where
  major : Nat := 0
  minor : Nat := 0
  patch : Nat := 0
  build : Nat := 0
  deriving DecidableEq, Repr, Inhabited

/-- The struct `ExeVersionInfo_`: the extracted metadata without a status. Its members
are named by `serialize`, `deserialize` and `extractVersionInfo`. -/
structure ExeVersionInfo_ where
  appName : String := ""
  description : String := ""
  version : Version := {}
  deriving DecidableEq, Repr, Inhabited

/-- Modelled from the spec: the type `ExeVersionInfo` is declared in a header that is not
among the sources. It is `ExeVersionInfo_` together with a `status`, which is
`Uninitialized` before assignment (brace-initialised as `{ {}, status }` by
`readExeVersionInfo`). -/
structure ExeVersionInfo extends ExeVersionInfo_ where
  status : ReadStatus := ReadStatus.Uninitialized
  deriving DecidableEq, Repr, Inhabited

/-! ## The operating system -/

/-- The Windows struct `VS_FIXEDFILEINFO`: thirteen `DWORD`s. -/
structure VS_FIXEDFILEINFO where
  dwSignature : Nat := 0
  dwStrucVersion : Nat := 0
  dwFileVersionMS : Nat := 0
  dwFileVersionLS : Nat := 0
  dwProductVersionMS : Nat := 0
  dwProductVersionLS : Nat := 0
  dwFileFlagsMask : Nat := 0
  dwFileFlags : Nat := 0
  dwFileOS : Nat := 0
  dwFileType : Nat := 0
  dwFileSubtype : Nat := 0
  dwFileDateMS : Nat := 0
  dwFileDateLS : Nat := 0
  deriving DecidableEq, Repr, Inhabited

/-- The size in bytes of `VS_FIXEDFILEINFO`, `sizeof(VS_FIXEDFILEINFO)`. -/
def sizeof_VS_FIXEDFILEINFO : Nat := 52

/-- The struct `LangInfo` of `ExeReader.cpp`: two `WORD`s. -/
structure LangInfo where
  language : Nat := 0
  codePage : Nat := 0
  deriving DecidableEq, Repr, Inhabited

/-- The size in bytes of `LangInfo`, `sizeof(LangInfo)`. -/
def sizeof_LangInfo : Nat := 4

/-- What one call of `VerQueryValue` gives back: its `BOOL` result and the two output
arguments, the buffer pointer (`none` for `nullptr`) and the length. -/
structure VerQueryOut (α : Type) where
  ok : Bool
  lplpBuffer : Option α
  puLen : Nat

/-- The bytes of a locked version resource, as `VerQueryValue` answers for them: the root
block `"\\"` is read as a `VS_FIXEDFILEINFO`, `"\\VarFileInfo\\Translation"` as an array
of `LangInfo`, and any other sub-block as an array of wide characters. -/
structure VersionData where
  root : VerQueryOut VS_FIXEDFILEINFO
  translation : VerQueryOut (Nat → LangInfo)
  value : String → VerQueryOut (Nat → Char)

/-- The answers of the resource and module functions of the Windows API. Handles are
numbers, `0` is the null handle; `LockResource` gives a pointer to the resource bytes. -/
structure WinApi where
  LoadLibraryEx : String → Nat
  FindResource : Nat → Nat → Nat → Nat
  LoadResource : Nat → Nat → Nat
  LockResource : Nat → Option VersionData
  SizeofResource : Nat → Nat → Nat

/-- One call into the operating system, with the arguments that identify it. -/
inductive ApiCall
  | LoadLibraryEx (filePath : String)
  | FreeLibrary (hModule : Nat)
  | FindResource (hModule : Nat) (lpName : Nat) (lpType : Nat)
  | LoadResource (hModule : Nat) (hResInfo : Nat)
  | LockResource (hResource : Nat)
  | SizeofResource (hModule : Nat) (hResInfo : Nat)
  | FreeResource (hResource : Nat)
  | VerQueryValue (subBlock : String)
  | GetLastError
  deriving DecidableEq, Repr

/-- The resource type `RT_VERSION`, `MAKEINTRESOURCE(16)`. -/
def RT_VERSION : Nat := 16

/-! ## Resources -/

/-- The class `Resource`; the default value is the one of its default constructor. -/
structure Resource where
  hResInfo : Nat := 0
  hResource : Nat := 0
  lpData : Option VersionData := none
  dwSize : Nat := 0

/-- The destructor `Resource::~Resource`: frees the resource handle when it is not null. -/
def Resource.destroy (res : Resource) : List ApiCall :=
  if res.hResource ≠ 0 then [ApiCall.FreeResource res.hResource] else []

/-- The function `getResource`. The local `res` is destroyed on the paths that return the
empty `{}`, and handed over to the caller on the last one. -/
def getResource (os : WinApi) (hExeModule : Nat) (lpType : Nat) : Resource × List ApiCall :=
  let hResInfo := os.FindResource hExeModule 1 lpType
  let t1 := [ApiCall.FindResource hExeModule 1 lpType]
  if hResInfo = 0 then
    ({}, t1 ++ [ApiCall.GetLastError])
  else
    let hResource := os.LoadResource hExeModule hResInfo
    let t2 := t1 ++ [ApiCall.LoadResource hExeModule hResInfo]
    if hResource = 0 then
      ({}, t2 ++ [ApiCall.GetLastError])
    else
      let lpData := os.LockResource hResource
      let dwSize := os.SizeofResource hExeModule hResInfo
      let t3 := t2 ++ [ApiCall.LockResource hResource, ApiCall.SizeofResource hExeModule hResInfo]
      let res : Resource := { hResInfo := hResInfo, hResource := hResource, lpData := lpData, dwSize := dwSize }
      if lpData.isNone ∨ dwSize = 0 then
        ({}, t3 ++ [ApiCall.GetLastError] ++ res.destroy)
      else
        (res, t3)

/-! ## Version info extraction -/

/-- The function `getRawVersionInfo`: the fixed-file-info block, or `none` for the
`nullptr` it returns when the query fails, the block is missing or short, or the
signature is not `0xFEEF04BD`. -/
def getRawVersionInfo (resData : VersionData) : Option VS_FIXEDFILEINFO × List ApiCall :=
  let q := resData.root
  if !q.ok then
    (none, [ApiCall.VerQueryValue "\\", ApiCall.GetLastError])
  else
    match q.lplpBuffer with
    | none => (none, [ApiCall.VerQueryValue "\\"])
    | some verInfo =>
      if q.puLen < sizeof_VS_FIXEDFILEINFO then
        (none, [ApiCall.VerQueryValue "\\"])
      else if verInfo.dwSignature ≠ 0xFEEF04BD then
        (none, [ApiCall.VerQueryValue "\\"])
      else
        (some verInfo, [ApiCall.VerQueryValue "\\"])

/-- The template `span`: a pointer to the first element and a number of elements. -/
structure span (α : Type) where
  data : Option (Nat → α)
  size : Nat

/-- The method `span::empty`. -/
def span.empty {α : Type} (s : span α) : Bool := s.size == 0

/-- The function `getLangInfo`: the translation table as a span of `LangInfo`. -/
def getLangInfo (resData : VersionData) : span LangInfo × List ApiCall :=
  let q := resData.translation
  let sub := "\\VarFileInfo\\Translation"
  if !q.ok then
    ({ data := none, size := 0 }, [ApiCall.VerQueryValue sub, ApiCall.GetLastError])
  else
    match q.lplpBuffer with
    | none => ({ data := none, size := 0 }, [ApiCall.VerQueryValue sub])
    | some lpTranslate =>
      if q.puLen < sizeof_LangInfo then
        ({ data := none, size := 0 }, [ApiCall.VerQueryValue sub])
      else
        ({ data := some lpTranslate, size := q.puLen / sizeof_LangInfo }, [ApiCall.VerQueryValue sub])

/-- The conversion `%04x` of `printf`: lower-case hexadecimal digits, padded on the left
with zeros to at least four. -/
def hex04 (n : Nat) : String :=
  String.mk (List.leftpad 4 '0' (Nat.toDigits 16 n))

/-- The sub-block name built by `getVerInfoValue`, the format
`"\\StringFileInfo\\%04x%04x\\%s"` filled in. -/
def subBlockName (langInfo : LangInfo) (valueName : String) : String :=
  "\\StringFileInfo\\" ++ hex04 langInfo.language ++ hex04 langInfo.codePage ++ "\\" ++ valueName

/-- The function `StringCchPrintf` on an already formatted text: it fails when the text
and its terminator do not fit the `cchDest` characters of the destination. -/
def StringCchPrintf (cchDest : Nat) (formatted : String) : Option String :=
  if formatted.length < cchDest then some formatted else none

/-- The conversion `QString::fromWCharArray( buffer, size )`: the first `size` characters
at the pointer. The size is the one of the caller, `int( cchLen ) - 1`, for lengths that
fit an `int`. -/
def fromWCharArray (lpBuffer : Nat → Char) (size : Nat) : String :=
  String.mk ((List.range size).map lpBuffer)

/-- The function `getVerInfoValue`: the value of a named string of the string table of
one language, the empty string when it cannot be had. -/
def getVerInfoValue (resData : VersionData) (langInfo : LangInfo) (valueName : String) :
    String × List ApiCall :=
  match StringCchPrintf 128 (subBlockName langInfo valueName) with
  | none => ("", [])
  | some SubBlock =>
    let q := resData.value SubBlock
    if !q.ok then
      ("", [ApiCall.VerQueryValue SubBlock, ApiCall.GetLastError])
    else
      match q.lplpBuffer with
      | none => ("", [ApiCall.VerQueryValue SubBlock])
      | some lpBuffer =>
        if q.puLen = 0 then
          ("", [ApiCall.VerQueryValue SubBlock])
        else
          (fromWCharArray lpBuffer (q.puLen - 1), [ApiCall.VerQueryValue SubBlock])

/-- The version fields as `extractVersionInfo` decodes them from the two `DWORD`s. -/
def decodeVersion (rawVerInfo : VS_FIXEDFILEINFO) : Version :=
  { major := (rawVerInfo.dwFileVersionMS >>> 16) &&& 0xffff
  , minor := (rawVerInfo.dwFileVersionMS >>> 0) &&& 0xffff
  , patch := (rawVerInfo.dwFileVersionLS >>> 16) &&& 0xffff
  , build := (rawVerInfo.dwFileVersionLS >>> 0) &&& 0xffff }

/-- The function `extractVersionInfo`: fills the version when the fixed-file-info block is
valid, and the two strings when there is a translation table, from its first entry. A span
that is not empty has a pointer that is not null (`getLangInfo_data`), so the `none`
branch is never taken. -/
def extractVersionInfo (resData : VersionData) (verInfo : ExeVersionInfo) :
    ExeVersionInfo × List ApiCall :=
  let raw := getRawVersionInfo resData
  let verInfo1 : ExeVersionInfo :=
    match raw.1 with
    | some rawVerInfo => { verInfo with version := decodeVersion rawVerInfo }
    | none => verInfo
  let languages := getLangInfo resData
  if !languages.1.empty then
    match languages.1.data with
    | some langs =>
      let name := getVerInfoValue resData (langs 0) "ProductName"
      let desc := getVerInfoValue resData (langs 0) "FileDescription"
      ({ verInfo1 with appName := name.1, description := desc.1 },
        raw.2 ++ languages.2 ++ name.2 ++ desc.2)
    | none => (verInfo1, raw.2 ++ languages.2)
  else
    (verInfo1, raw.2 ++ languages.2)

/-! ## Reading a file -/

/-- The function `readVersionInfoUsingWinAPI`. The module guard frees the library when the
scope ends, after the resource is destroyed. -/
def readVersionInfoUsingWinAPI (os : WinApi) (filePath : String) :
    ExeVersionInfo × List ApiCall :=
  let verInfo : ExeVersionInfo := {}
  let hExeModule := os.LoadLibraryEx filePath
  if hExeModule = 0 then
    ({ verInfo with status := ReadStatus.CantOpen },
      [ApiCall.LoadLibraryEx filePath, ApiCall.GetLastError])
  else
    let got := getResource os hExeModule RT_VERSION
    let resource := got.1
    let closing := resource.destroy ++ [ApiCall.FreeLibrary hExeModule]
    match resource.lpData with
    | none =>
      ({ verInfo with status := ReadStatus.InfoNotPresent },
        [ApiCall.LoadLibraryEx filePath] ++ got.2 ++ closing)
    | some resData =>
      let ext := extractVersionInfo resData verInfo
      ({ ext.1 with status := ReadStatus.Success },
        [ApiCall.LoadLibraryEx filePath] ++ got.2 ++ ext.2 ++ closing)

/-- The function `readExeVersionInfo`; `IS_WINDOWS` is the build-time platform switch, and
the operating system is only there in the Windows build. -/
def readExeVersionInfo (IS_WINDOWS : Bool) (os : WinApi) (filePath : String) :
    ExeVersionInfo × List ApiCall :=
  if IS_WINDOWS then
    readVersionInfoUsingWinAPI os filePath
  else
    ({ toExeVersionInfo_ := {}, status := ReadStatus.NotSupported }, [])

/-! ## The lookup of the strings, as the description gives it -/

/-- The four hexadecimal digits of a 16-bit number, most significant first: the
"4 zero-padded hexadecimal digits" of the description of the lookup path. -/
def fourHexDigits (n : Nat) : String :=
  String.mk [Nat.digitChar (n / 4096 % 16), Nat.digitChar (n / 256 % 16),
    Nat.digitChar (n / 16 % 16), Nat.digitChar (n % 16)]

/-- The lookup path of the description: `\StringFileInfo\`, the language and the code page
as four hexadecimal digits each, `\`, and the name of the field. -/
def stringFileInfoPath (langInfo : LangInfo) (fieldName : String) : String :=
  "\\StringFileInfo\\" ++ fourHexDigits langInfo.language ++ fourHexDigits langInfo.codePage
    ++ "\\" ++ fieldName

/-- The value a string query answers with: the characters of the buffer before the
terminator that the length counts, and the empty string when the query fails or gives a
null or empty buffer. -/
def queriedText (q : VerQueryOut (Nat → Char)) : String :=
  if q.ok = true then
    match q.lplpBuffer with
    | some lpBuffer => if q.puLen = 0 then "" else fromWCharArray lpBuffer (q.puLen - 1)
    | none => ""
  else
    ""

/-! ## Serialization (ExeReader) -/

/-- Modelled from the spec: the method `Version::toString` is defined outside the sources.
It gives the version "formatted as `major.minor.patch.build`": the four numbers in
decimal, joined by dots. -/
def Version.toString (v : Version) : String :=
  String.mk (List.intercalate ['.']
    [Nat.toDigits 10 v.major, Nat.toDigits 10 v.minor, Nat.toDigits 10 v.patch,
      Nat.toDigits 10 v.build])

/-- The number a text of decimal digits writes, `none` when the text is empty or has
another character. -/
def parseDecimal? (cs : List Char) : Option Nat :=
  if cs ≠ [] ∧ cs.all Char.isDigit = true then
    some (cs.foldl (fun acc c => 10 * acc + (c.toNat - 48)) 0)
  else
    none

/-- Modelled from the spec: the constructor `Version( QString )` is defined outside the
sources. It reads back a text "formatted as `major.minor.patch.build`": four decimal
numbers separated by dots, each an unsigned 16-bit value; any other text gives the default
version. -/
def Version.ofString (s : String) : Version :=
  match (s.data.splitOn '.').map parseDecimal? with
  | [some major, some minor, some patch, some build] =>
    if major < 65536 ∧ minor < 65536 ∧ patch < 65536 ∧ build < 65536 then
      { major := major, minor := minor, patch := patch, build := build }
    else
      {}
  | _ => {}

/-- The values of a JSON object, of the Qt library: only the kinds without nesting. -/
inductive QJsonValue
  | null
  | bool (b : Bool)
  | number (x : Int)
  | string (s : String)
  deriving DecidableEq, Repr

/-- The JSON object of the Qt library, `QJsonObject`: keys with their values. -/
abbrev QJsonObject := List (String × QJsonValue)

/-- The assignment `object[ key ] = value`: replaces the value of the key, or adds the
key. -/
def QJsonObject.set : QJsonObject → String → QJsonValue → QJsonObject
  | [], key, value => [(key, value)]
  | (k, v) :: rest, key, value =>
    if k = key then (key, value) :: rest else (k, v) :: QJsonObject.set rest key value

/-- The value of a key of an object, if the object has the key. -/
def QJsonObject.get? : QJsonObject → String → Option QJsonValue
  | [], _ => none
  | (k, v) :: rest, key => if k = key then some v else QJsonObject.get? rest key

/-- Modelled from the spec: the method `JsonObjectCtx::getString` is defined outside the
sources (the structured-document reader). It gives the string stored under the key, and
the empty string when the key is missing or its value is not a string. -/
def JsonObjectCtx.getString (jsObject : QJsonObject) (key : String) : String :=
  match jsObject.get? key with
  | some (QJsonValue.string s) => s
  | _ => ""

/-- The method `ExeVersionInfo_::serialize`: writes the three members into the object. -/
def ExeVersionInfo_.serialize (self : ExeVersionInfo_) (jsExeInfo : QJsonObject) :
    QJsonObject :=
  let js1 := jsExeInfo.set "app_name" (QJsonValue.string self.appName)
  let js2 := js1.set "description" (QJsonValue.string self.description)
  js2.set "version" (QJsonValue.string self.version.toString)

/-- The method `ExeVersionInfo_::deserialize`: assigns the three members, all there are,
from the object. -/
def ExeVersionInfo_.deserialize (jsExeInfo : QJsonObject) : ExeVersionInfo_ :=
  { appName := JsonObjectCtx.getString jsExeInfo "app_name"
  , description := JsonObjectCtx.getString jsExeInfo "description"
  , version := Version.ofString (JsonObjectCtx.getString jsExeInfo "version") }

/-! ## The cache of file information -/

/-- Modelled from the spec: the stamp, "the (size, modification-time) pair used as a
cheap proxy for has this file changed". -/
structure FileStamp where
  fileSize : Nat
  fileModTime : Nat
  deriving DecidableEq, Repr

/-- Modelled from the spec: the entry `CacheEntry<T>` of the data model: the path as key,
the value, and the stamp captured when the value was computed. -/
structure CacheEntry (T : Type) where
  key : String
  value : T
  fileSize : Nat
  fileModTime : Nat

/-- The attributes of the files at one moment: the stamp of a path, `none` when the file
does not exist or its attributes cannot be read. -/
abbrev FileAttributes := String → Option FileStamp

/-- The entry of a path, if the cache has one. -/
def CacheEntry.lookup {T : Type} : List (CacheEntry T) → String → Option (CacheEntry T)
  | [], _ => none
  | entry :: rest, path =>
    if entry.key = path then some entry else CacheEntry.lookup rest path

/-- Stores an entry under its key, "replacing any prior entry". -/
def CacheEntry.store {T : Type} : List (CacheEntry T) → CacheEntry T → List (CacheEntry T)
  | [], newEntry => [newEntry]
  | entry :: rest, newEntry =>
    if entry.key = newEntry.key then newEntry :: rest
    else entry :: CacheEntry.store rest newEntry

/-- What one `get` of the cache gives: the value returned, the entries afterwards, and
the paths the extraction function was called with. -/
structure GetResult (T : Type) where
  value : T
  entries : List (CacheEntry T)
  extractCalls : List String

/-- Modelled from the spec: the class template `FileInfoCache` is declared in
`FileInfoCache.hpp`, which is not among the sources; this is the `get` of the component
design. With no entry, or a stamp that differs from the current attributes of the file,
it calls `extract`, stores the value with the new stamp and returns it; with an entry
whose stamp matches, it returns the stored value without calling `extract`; when the
attributes cannot be read it still calls `extract`. -/
def FileInfoCache.get {T : Type} (extract : String → T) (attributes : FileAttributes)
    (entries : List (CacheEntry T)) (path : String) : GetResult T :=
  match attributes path with
  | none => { value := extract path, entries := entries, extractCalls := [path] }
  | some stamp =>
    let fresh : CacheEntry T :=
      { key := path, value := extract path
      , fileSize := stamp.fileSize, fileModTime := stamp.fileModTime }
    match CacheEntry.lookup entries path with
    | some entry =>
      if entry.fileSize = stamp.fileSize ∧ entry.fileModTime = stamp.fileModTime then
        { value := entry.value, entries := entries, extractCalls := [] }
      else
        { value := fresh.value, entries := CacheEntry.store entries fresh
        , extractCalls := [path] }
    | none =>
      { value := fresh.value, entries := CacheEntry.store entries fresh
      , extractCalls := [path] }

/-- The `get` of the global `g_cachedExeInfo`, the cache constructed over
`readExeVersionInfo`, which reads the file from the operating system as it is at the
time of the call. -/
def g_cachedExeInfo_get (IS_WINDOWS : Bool) (os : WinApi) (attributes : FileAttributes)
    (entries : List (CacheEntry ExeVersionInfo)) (path : String) : GetResult ExeVersionInfo :=
  FileInfoCache.get (fun filePath => (readExeVersionInfo IS_WINDOWS os filePath).1)
    attributes entries path

/-! ## The engine dialog (EngineDialog) -/

/-- Modelled from the spec: the struct `Engine` is declared in `UserData.hpp`, which is
not among the sources. These are the members `EngineDialog.cpp` reads and writes; the
family is the integer value of the enumeration `EngineFamily`. -/
structure Engine where
  name : String := ""
  path : String := ""
  configDir : String := ""
  family : Nat := 0
  deriving DecidableEq, Repr

/-- The result code of a dialog, `QDialog::DialogCode`. -/
inductive DialogCode
  | Rejected
  | Accepted
  deriving DecidableEq, Repr

/-- The state of an `EngineDialog` that `accept` touches: the engine being edited, and of
the `QDialog` underneath whether it is shown and its result code. -/
structure EngineDialog where
  engine : Engine
  visible : Bool := true
  result : DialogCode := DialogCode.Rejected
  deriving DecidableEq, Repr

/-- One call of `EngineDialog::accept` into the user interface. -/
inductive UiCall
  | warning (title : String) (text : String)
  | unhighlightListItem
  | QDialog_accept
  deriving DecidableEq, Repr

/-- The method `QDialog::accept` of the Qt library: hides the dialog and sets the result
code to `Accepted`. -/
def QDialog.accept (self : EngineDialog) : EngineDialog :=
  { self with visible := false, result := DialogCode.Accepted }

/-- The method `EngineDialog::accept`. The checks `isInvalidFile` and `isInvalidDir` look
at the file system and `unhighlightListItem` changes how the engine is displayed; all three
are defined outside the sources and are taken as they come. -/
def EngineDialog.accept (isInvalidFile isInvalidDir : String → Bool)
    (unhighlightListItem : Engine → Engine) (self : EngineDialog) :
    EngineDialog × List UiCall :=
  if self.engine.name = "" then
    (self, [UiCall.warning "Engine name is empty" "Please give the engine some name."])
  else if self.engine.path = "" then
    (self, [UiCall.warning "Executable path is empty"
      "Please specify the engine's executable path."])
  else if isInvalidFile self.engine.path = true then
    (self, [UiCall.warning "Executable doesn't exist"
      "Please fix the engine's executable path, such file doesn't exist."])
  else if isInvalidDir self.engine.configDir = true then
    (self, [UiCall.warning "Config dir doesn't exist"
      "Please fix the engine's config dir, such directory doesn't exist."])
  else
    (QDialog.accept { self with engine := unhighlightListItem self.engine },
      [UiCall.unhighlightListItem, UiCall.QDialog_accept])

/-! ## Sample inputs -/

/-- A pointer to the characters of a text, followed by zeros. -/
def textAt (s : String) : Nat → Char :=
  fun i => s.toList.getD i (Char.ofNat 0)

/-- A query of `VerQueryValue` that fails. -/
def queryFailed {α : Type} : VerQueryOut α :=
  { ok := false, lplpBuffer := none, puLen := 0 }

/-- A version resource with file version 1.2.3.4, two translations (0409/04b0 first, then
0405/04e2), and the two strings of the first translation. -/
def sampleData : VersionData :=
  { root :=
      { ok := true
      , lplpBuffer := some
          { dwSignature := 0xFEEF04BD, dwFileVersionMS := 0x00010002, dwFileVersionLS := 0x00030004 }
      , puLen := 52 }
  , translation :=
      { ok := true
      , lplpBuffer := some (fun i => if i = 0 then ⟨0x0409, 0x04b0⟩ else ⟨0x0405, 0x04e2⟩)
      , puLen := 8 }
  , value := fun sub =>
      if sub = "\\StringFileInfo\\040904b0\\ProductName" then
        { ok := true, lplpBuffer := some (textAt "GZDoom"), puLen := 7 }
      else if sub = "\\StringFileInfo\\040904b0\\FileDescription" then
        { ok := true, lplpBuffer := some (textAt "An engine"), puLen := 10 }
      else
        queryFailed }

/-- An operating system with one loadable file, `C:\gzdoom.exe` (module handle 77), whose
version resource (handles 5 and 9) holds the given bytes. -/
def sampleOs (data : VersionData) : WinApi :=
  { LoadLibraryEx := fun filePath => if filePath = "C:\\gzdoom.exe" then 77 else 0
  , FindResource := fun hModule lpName lpType =>
      if hModule = 77 ∧ lpName = 1 ∧ lpType = 16 then 5 else 0
  , LoadResource := fun hModule hResInfo => if hModule = 77 ∧ hResInfo = 5 then 9 else 0
  , LockResource := fun hResource => if hResource = 9 then some data else none
  , SizeofResource := fun _ _ => 100 }

/-- The sample operating system, except that the file has no version resource. -/
def noResourceOs : WinApi :=
  { sampleOs sampleData with FindResource := fun _ _ _ => 0 }

/-- The sample version resource without its `ProductName` string. -/
def noNameData : VersionData :=
  { sampleData with
    value := fun sub =>
      if sub = "\\StringFileInfo\\040904b0\\FileDescription" then
        { ok := true, lplpBuffer := some (textAt "An engine"), puLen := 10 }
      else
        queryFailed }

/-- The sample version resource with a fixed-file-info block whose signature is 0. -/
def badSignatureData : VersionData :=
  { sampleData with
    root :=
      { ok := true
      , lplpBuffer := some
          { dwSignature := 0, dwFileVersionMS := 0x00010002, dwFileVersionLS := 0x00030004 }
      , puLen := 52 } }

/-- The sample operating system, except that the version resource is found and cannot be
loaded. -/
def loadFailsOs : WinApi :=
  { sampleOs sampleData with LoadResource := fun _ _ => 0 }

/-- The sample version resource with the first translation only. -/
def oneTranslationData : VersionData :=
  { sampleData with
    translation :=
      { ok := true, lplpBuffer := some (fun _ => ⟨0x0409, 0x04b0⟩), puLen := 4 } }

/-- The sample version resource without a translation table. -/
def noTableData : VersionData :=
  { sampleData with translation := queryFailed }

/-- A read result with a failure status and some content. -/
def sampleInfo : ExeVersionInfo :=
  { appName := "GZDoom", description := "An engine"
  , version := { major := 1, minor := 2, patch := 3, build := 4 }
  , status := ReadStatus.FailedToRead }

/-- A JSON object that already has a path and a version that is not a string. -/
def sampleJsObject : QJsonObject :=
  [("path", QJsonValue.string "C:\\gzdoom.exe"), ("version", QJsonValue.number 3)]

/-- File attributes under which every file has size 100 and modification time 5. -/
def sampleAttributes : FileAttributes :=
  fun _ => some { fileSize := 100, fileModTime := 5 }

/-- An engine dialog whose engine has a path and no name. -/
def sampleDialog : EngineDialog :=
  { engine := { name := "", path := "C:\\gzdoom.exe", configDir := "C:\\", family := 1 } }

/-! ## The table of status names -/

theorem ReadStatusStrings_size :
    ReadStatusStrings.length = ReadStatus.Uninitialized.toOrdinal := by
  decide

theorem ReadStatus.ofOrdinal?_toOrdinal (status : ReadStatus) :
    ReadStatus.ofOrdinal? (status.toOrdinal : Int) = some status := by
  cases status <;> rfl

/-! ## Arithmetic of the version fields -/

theorem shiftRight16_and_mask (a : Nat) (h : a < 2 ^ 32) :
    (a >>> 16) &&& 0xffff = a / 2 ^ 16 := by
  have hmask : (0xffff : Nat) = 2 ^ 16 - 1 := by norm_num
  rw [hmask, Nat.and_pow_two_sub_one_eq_mod, Nat.shiftRight_eq_div_pow]
  apply Nat.mod_eq_of_lt
  apply Nat.div_lt_of_lt_mul
  calc a < 2 ^ 32 := h
    _ = 2 ^ 16 * 2 ^ 16 := by norm_num

theorem shiftRight0_and_mask (a : Nat) : (a >>> 0) &&& 0xffff = a % 2 ^ 16 := by
  have hmask : (0xffff : Nat) = 2 ^ 16 - 1 := by norm_num
  rw [hmask, Nat.and_pow_two_sub_one_eq_mod, Nat.shiftRight_zero]

theorem decodeVersion_eq (raw : VS_FIXEDFILEINFO)
    (hMS : raw.dwFileVersionMS < 2 ^ 32) (hLS : raw.dwFileVersionLS < 2 ^ 32) :
    decodeVersion raw =
      { major := raw.dwFileVersionMS / 2 ^ 16, minor := raw.dwFileVersionMS % 2 ^ 16
      , patch := raw.dwFileVersionLS / 2 ^ 16, build := raw.dwFileVersionLS % 2 ^ 16 } := by
  unfold decodeVersion
  rw [shiftRight16_and_mask _ hMS, shiftRight16_and_mask _ hLS, shiftRight0_and_mask,
    shiftRight0_and_mask]

/-! ## What the extraction functions return -/

theorem getRawVersionInfo_valid (resData : VersionData) (info : VS_FIXEDFILEINFO)
    (hok : resData.root.ok = true) (hbuf : resData.root.lplpBuffer = some info)
    (hlen : sizeof_VS_FIXEDFILEINFO ≤ resData.root.puLen)
    (hsig : info.dwSignature = 0xFEEF04BD) :
    (getRawVersionInfo resData).1 = some info := by
  simp [getRawVersionInfo, hok, hbuf, hsig, Nat.not_lt.mpr hlen]

theorem getRawVersionInfo_invalid (resData : VersionData)
    (h : resData.root.ok = false ∨ resData.root.lplpBuffer = none ∨
      resData.root.puLen < sizeof_VS_FIXEDFILEINFO ∨
      ∃ info, resData.root.lplpBuffer = some info ∧ info.dwSignature ≠ 0xFEEF04BD) :
    (getRawVersionInfo resData).1 = none := by
  unfold getRawVersionInfo
  rcases h with h | h | h | ⟨info, h, hsig⟩
  · simp [h]
  · simp only [h]; split <;> rfl
  · simp only []
    split
    · rfl
    · split
      · rfl
      · simp [h]
  · simp only [h]
    split
    · rfl
    · split
      · rfl
      · simp [hsig]

theorem extractVersionInfo_version (resData : VersionData) (verInfo : ExeVersionInfo) :
    (extractVersionInfo resData verInfo).1.version =
      match (getRawVersionInfo resData).1 with
      | some rawVerInfo => decodeVersion rawVerInfo
      | none => verInfo.version := by
  unfold extractVersionInfo
  simp only []
  split <;> (try split) <;> (cases (getRawVersionInfo resData).1 <;> rfl)

theorem getRawVersionInfo_congr (resData resData' : VersionData)
    (hroot : resData'.root = resData.root) :
    getRawVersionInfo resData' = getRawVersionInfo resData := by
  unfold getRawVersionInfo
  rw [hroot]

theorem getLangInfo_congr (resData resData' : VersionData)
    (htr : resData'.translation = resData.translation) :
    getLangInfo resData' = getLangInfo resData := by
  unfold getLangInfo
  rw [htr]

theorem getLangInfo_data (resData : VersionData)
    (hnull : (getLangInfo resData).1.data = none) : (getLangInfo resData).1.empty = true := by
  unfold getLangInfo at hnull ⊢
  cases hok : resData.translation.ok with
  | false => simp [hok, span.empty]
  | true =>
    cases hbuf : resData.translation.lplpBuffer with
    | none => simp [hok, hbuf, span.empty]
    | some lpTranslate =>
      by_cases hlen : resData.translation.puLen < sizeof_LangInfo
      · simp [hok, hbuf, hlen, span.empty]
      · simp [hok, hbuf, hlen] at hnull

theorem getLangInfo_table (resData : VersionData) (langs : Nat → LangInfo)
    (hok : resData.translation.ok = true) (hbuf : resData.translation.lplpBuffer = some langs)
    (hlen : sizeof_LangInfo ≤ resData.translation.puLen) :
    (getLangInfo resData).1 =
      { data := some langs, size := resData.translation.puLen / sizeof_LangInfo } := by
  simp [getLangInfo, hok, hbuf, Nat.not_lt.mpr hlen]

theorem getVerInfoValue_congr (resData resData' : VersionData) (langInfo : LangInfo)
    (valueName : String)
    (hval : resData'.value (subBlockName langInfo valueName)
      = resData.value (subBlockName langInfo valueName)) :
    getVerInfoValue resData' langInfo valueName = getVerInfoValue resData langInfo valueName := by
  unfold getVerInfoValue StringCchPrintf
  split
  · rfl
  · rename_i sub hsub
    split at hsub
    · cases hsub
      rw [hval]
    · cases hsub

theorem getVerInfoValue_unusable (resData : VersionData) (langInfo : LangInfo)
    (valueName : String)
    (h : (resData.value (subBlockName langInfo valueName)).ok = false ∨
      (resData.value (subBlockName langInfo valueName)).lplpBuffer = none ∨
      (resData.value (subBlockName langInfo valueName)).puLen = 0) :
    (getVerInfoValue resData langInfo valueName).1 = "" := by
  unfold getVerInfoValue StringCchPrintf
  split
  · rfl
  · rename_i sub hsub
    split at hsub
    · cases hsub
      rcases h with h | h | h
      · simp [h]
      · simp only [h]; split <;> rfl
      · simp only []
        split
        · rfl
        · split
          · rfl
          · simp [h]
    · cases hsub

theorem extractVersionInfo_strings (resData : VersionData) (verInfo : ExeVersionInfo)
    (langs : Nat → LangInfo)
    (hok : resData.translation.ok = true) (hbuf : resData.translation.lplpBuffer = some langs)
    (hlen : sizeof_LangInfo ≤ resData.translation.puLen) :
    (extractVersionInfo resData verInfo).1.appName
        = (getVerInfoValue resData (langs 0) "ProductName").1 ∧
      (extractVersionInfo resData verInfo).1.description
        = (getVerInfoValue resData (langs 0) "FileDescription").1 := by
  have hpos : resData.translation.puLen / sizeof_LangInfo ≠ 0 := by
    unfold sizeof_LangInfo at hlen ⊢
    omega
  unfold extractVersionInfo
  simp [getLangInfo_table resData langs hok hbuf hlen, span.empty, hpos]

theorem subBlockName_ne (langInfo : LangInfo) (a b : String) (hab : a ≠ b) :
    subBlockName langInfo a ≠ subBlockName langInfo b := by
  intro h
  apply hab
  have hdata := congrArg String.data h
  simp only [subBlockName, String.data_append, List.append_assoc] at hdata
  exact String.ext (List.append_cancel_left (List.append_cancel_left
    (List.append_cancel_left (List.append_cancel_left hdata))))

/-! ## Digits -/

theorem toDigitsCore_append (b : Nat) : ∀ (fuel n : Nat) (ds : List Char),
    Nat.toDigitsCore b fuel n ds = Nat.toDigitsCore b fuel n [] ++ ds := by
  intro fuel
  induction fuel with
  | zero => intro n ds; simp [Nat.toDigitsCore]
  | succ f ih =>
    intro n ds
    simp only [Nat.toDigitsCore]
    split
    · simp
    · rw [ih (n / b) (Nat.digitChar (n % b) :: ds), ih (n / b) [Nat.digitChar (n % b)]]
      simp

theorem toDigitsCore_fuel (b : Nat) (hb : 2 ≤ b) : ∀ (fuel n : Nat) (ds : List Char),
    n < fuel → Nat.toDigitsCore b fuel n ds = Nat.toDigitsCore b (n + 1) n ds := by
  intro fuel
  induction fuel using Nat.strong_induction_on with
  | _ fuel ih =>
    intro n ds hn
    cases fuel with
    | zero => omega
    | succ f =>
      simp only [Nat.toDigitsCore]
      split
      · rfl
      · rename_i hq
        have hlt : n / b < n :=
          Nat.div_lt_self (by by_contra h; simp at h; subst h; simp at hq) hb
        rw [ih f (by omega) (n / b) _ (by omega), ih n (by omega) (n / b) _ hlt]

theorem toDigits_small (b n : Nat) (hn : n < b) : Nat.toDigits b n = [Nat.digitChar n] := by
  simp [Nat.toDigits, Nat.toDigitsCore, Nat.div_eq_of_lt hn, Nat.mod_eq_of_lt hn]

theorem toDigits_step (b n : Nat) (hb : 2 ≤ b) (hn : b ≤ n) :
    Nat.toDigits b n = Nat.toDigits b (n / b) ++ [Nat.digitChar (n % b)] := by
  have hq : n / b ≠ 0 := Nat.pos_iff_ne_zero.mp (Nat.div_pos hn (by omega))
  have hlt : n / b < n := Nat.div_lt_self (by omega) hb
  have h1 : Nat.toDigits b n = Nat.toDigitsCore b n (n / b) [Nat.digitChar (n % b)] := by
    simp [Nat.toDigits, Nat.toDigitsCore, hq]
  rw [h1, toDigitsCore_append, toDigitsCore_fuel b hb n (n / b) [] hlt]
  rfl

theorem hex04_word (n : Nat) (hn : n < 65536) : hex04 n = fourHexDigits n := by
  unfold hex04 fourHexDigits
  congr 1
  by_cases h1 : n < 16
  · rw [toDigits_small 16 n h1]
    have e1 : n / 4096 = 0 := by omega
    have e2 : n / 256 = 0 := by omega
    have e3 : n / 16 = 0 := by omega
    have e4 : n % 16 = n := by omega
    simp [List.leftpad, e1, e2, e3, e4]
    decide
  · rw [toDigits_step 16 n (by omega) (by omega)]
    by_cases h2 : n < 256
    · rw [toDigits_small 16 (n / 16) (by omega)]
      have e1 : n / 4096 = 0 := by omega
      have e2 : n / 256 = 0 := by omega
      have e3 : n / 16 % 16 = n / 16 := by omega
      simp [List.leftpad, e1, e2, e3]
      decide
    · rw [toDigits_step 16 (n / 16) (by omega) (by omega)]
      by_cases h3 : n < 4096
      · rw [toDigits_small 16 (n / 16 / 16) (by omega)]
        have e1 : n / 4096 = 0 := by omega
        have e2 : n / 256 % 16 = n / 16 / 16 := by omega
        simp [List.leftpad, e1, e2]
        decide
      · rw [toDigits_step 16 (n / 16 / 16) (by omega) (by omega)]
        rw [toDigits_small 16 (n / 16 / 16 / 16) (by omega)]
        have e1 : n / 4096 % 16 = n / 16 / 16 / 16 := by omega
        have e2 : n / 256 % 16 = n / 16 / 16 % 16 := by omega
        simp [List.leftpad, e1, e2]

/-! ## The strings of the first translation -/

theorem subBlockName_word (langInfo : LangInfo) (valueName : String)
    (hlang : langInfo.language < 65536) (hpage : langInfo.codePage < 65536) :
    subBlockName langInfo valueName = stringFileInfoPath langInfo valueName := by
  unfold subBlockName stringFileInfoPath
  rw [hex04_word _ hlang, hex04_word _ hpage]

theorem stringFileInfoPath_length (langInfo : LangInfo) (fieldName : String) :
    (stringFileInfoPath langInfo fieldName).length = 25 + fieldName.length := by
  have h1 : ("\\StringFileInfo\\" : String).length = 16 := by decide
  have h2 : (fourHexDigits langInfo.language).length = 4 := rfl
  have h3 : (fourHexDigits langInfo.codePage).length = 4 := rfl
  have h4 : ("\\" : String).length = 1 := by decide
  simp only [stringFileInfoPath, String.length_append, h1, h2, h3, h4]

theorem getVerInfoValue_word (resData : VersionData) (langInfo : LangInfo)
    (valueName : String)
    (hlang : langInfo.language < 65536) (hpage : langInfo.codePage < 65536)
    (hname : valueName.length < 103) :
    (getVerInfoValue resData langInfo valueName).1
      = queriedText (resData.value (stringFileInfoPath langInfo valueName)) := by
  have hfit : (stringFileInfoPath langInfo valueName).length < 128 := by
    rw [stringFileInfoPath_length]
    omega
  unfold getVerInfoValue StringCchPrintf queriedText
  rw [subBlockName_word langInfo valueName hlang hpage]
  simp only [hfit, if_true]
  cases hok : (resData.value (stringFileInfoPath langInfo valueName)).ok with
  | false => simp
  | true =>
    cases hbuf : (resData.value (stringFileInfoPath langInfo valueName)).lplpBuffer with
    | none => simp
    | some lpBuffer =>
      by_cases hlen : (resData.value (stringFileInfoPath langInfo valueName)).puLen = 0
      · simp [hlen]
      · simp [hlen]

theorem getLangInfo_no_table (resData : VersionData)
    (h : resData.translation.ok = false ∨ resData.translation.lplpBuffer = none ∨
      resData.translation.puLen < sizeof_LangInfo) :
    (getLangInfo resData).1.empty = true := by
  unfold getLangInfo
  cases hok : resData.translation.ok with
  | false => simp [hok, span.empty]
  | true =>
    cases hbuf : resData.translation.lplpBuffer with
    | none => simp [hok, hbuf, span.empty]
    | some lpTranslate =>
      rcases h with h | h | h
      · rw [hok] at h; cases h
      · rw [hbuf] at h; cases h
      · simp [hok, hbuf, h, span.empty]

theorem extractVersionInfo_no_table (resData : VersionData) (verInfo : ExeVersionInfo)
    (h : resData.translation.ok = false ∨ resData.translation.lplpBuffer = none ∨
      resData.translation.puLen < sizeof_LangInfo) :
    (extractVersionInfo resData verInfo).1.appName = verInfo.appName ∧
      (extractVersionInfo resData verInfo).1.description = verInfo.description := by
  unfold extractVersionInfo
  simp only [getLangInfo_no_table resData h]
  cases (getRawVersionInfo resData).1 <;> exact ⟨rfl, rfl⟩

theorem ExeVersionInfo.eq_of_fields (a b : ExeVersionInfo)
    (hname : a.appName = b.appName) (hdesc : a.description = b.description)
    (hver : a.version = b.version) (hstatus : a.status = b.status) : a = b := by
  rcases a with ⟨⟨_, _, _⟩, _⟩
  rcases b with ⟨⟨_, _, _⟩, _⟩
  simp only [] at hname hdesc hver hstatus
  subst hname hdesc hver hstatus
  rfl

/-! ## Decimal numbers and the version text -/

theorem digitChar_decimal (k : Nat) (hk : k < 10) :
    (Nat.digitChar k).isDigit = true ∧ (Nat.digitChar k).toNat - 48 = k := by
  interval_cases k <;> exact ⟨by decide, by decide⟩

theorem toDigits_decimal (n : Nat) :
    Nat.toDigits 10 n ≠ [] ∧ (Nat.toDigits 10 n).all Char.isDigit = true ∧
      (Nat.toDigits 10 n).foldl (fun acc c => 10 * acc + (c.toNat - 48)) 0 = n := by
  induction n using Nat.strong_induction_on with
  | _ n ih =>
    by_cases hn : n < 10
    · rw [toDigits_small 10 n hn]
      have hd := digitChar_decimal n hn
      refine ⟨by simp, by simp [hd.1], ?_⟩
      simp only [List.foldl_cons, List.foldl_nil, hd.2]
      omega
    · rw [toDigits_step 10 n (by omega) (by omega)]
      have hd := digitChar_decimal (n % 10) (Nat.mod_lt n (by omega))
      obtain ⟨_, hall, hval⟩ := ih (n / 10) (by omega)
      refine ⟨by simp, by simp [hall, hd.1], ?_⟩
      rw [List.foldl_append, hval]
      simp only [List.foldl_cons, List.foldl_nil, hd.2]
      omega

theorem parseDecimal?_toDigits (n : Nat) : parseDecimal? (Nat.toDigits 10 n) = some n := by
  obtain ⟨hne, hall, hval⟩ := toDigits_decimal n
  simp [parseDecimal?, hne, hall, hval]

theorem dot_not_mem_toDigits (n : Nat) : '.' ∉ Nat.toDigits 10 n := by
  intro hmem
  have hall := (toDigits_decimal n).2.1
  rw [List.all_eq_true] at hall
  exact absurd (hall '.' hmem) (by decide)

theorem Version.ofString_toString (v : Version)
    (hmajor : v.major < 65536) (hminor : v.minor < 65536) (hpatch : v.patch < 65536)
    (hbuild : v.build < 65536) : Version.ofString v.toString = v := by
  have hsplit : (Version.toString v).data.splitOn '.' =
      [Nat.toDigits 10 v.major, Nat.toDigits 10 v.minor, Nat.toDigits 10 v.patch,
        Nat.toDigits 10 v.build] := by
    unfold Version.toString
    apply List.splitOn_intercalate
    · intro l hl
      simp only [List.mem_cons, List.mem_singleton, List.not_mem_nil, or_false] at hl
      rcases hl with h | h | h | h <;> subst h <;> exact dot_not_mem_toDigits _
    · simp
  unfold Version.ofString
  rw [hsplit]
  simp [parseDecimal?_toDigits, hmajor, hminor, hpatch, hbuild]

/-! ## JSON objects -/

theorem QJsonObject.get?_set_same (jsObject : QJsonObject) (key : String)
    (value : QJsonValue) : (jsObject.set key value).get? key = some value := by
  induction jsObject with
  | nil => simp [QJsonObject.set, QJsonObject.get?]
  | cons entry rest ih =>
    obtain ⟨k, v⟩ := entry
    by_cases hk : k = key
    · simp [QJsonObject.set, QJsonObject.get?, hk]
    · simp [QJsonObject.set, QJsonObject.get?, hk, ih]

theorem QJsonObject.get?_set_other (jsObject : QJsonObject) (key other : String)
    (value : QJsonValue) (hne : key ≠ other) :
    (jsObject.set key value).get? other = jsObject.get? other := by
  induction jsObject with
  | nil => simp [QJsonObject.set, QJsonObject.get?, hne]
  | cons entry rest ih =>
    obtain ⟨k, v⟩ := entry
    by_cases hk : k = key
    · have hko : k ≠ other := by rw [hk]; exact hne
      simp [QJsonObject.set, QJsonObject.get?, hk, hne, hko]
    · by_cases hko : k = other
      · subst hko
        simp [QJsonObject.set, QJsonObject.get?, hk]
      · simp [QJsonObject.set, QJsonObject.get?, hk, hko, ih]

/-! ## The cache -/

theorem CacheEntry.lookup_store {T : Type} (entries : List (CacheEntry T))
    (newEntry : CacheEntry T) :
    CacheEntry.lookup (CacheEntry.store entries newEntry) newEntry.key = some newEntry := by
  induction entries with
  | nil => simp [CacheEntry.store, CacheEntry.lookup]
  | cons entry rest ih =>
    by_cases hk : entry.key = newEntry.key
    · simp [CacheEntry.store, CacheEntry.lookup, hk]
    · simp [CacheEntry.store, CacheEntry.lookup, hk, ih]

theorem FileInfoCache.get_hit {T : Type} (extract : String → T)
    (attributes : FileAttributes) (entries : List (CacheEntry T)) (path : String)
    (stamp : FileStamp) (entry : CacheEntry T)
    (hattr : attributes path = some stamp)
    (hlook : CacheEntry.lookup entries path = some entry)
    (hsize : entry.fileSize = stamp.fileSize) (htime : entry.fileModTime = stamp.fileModTime) :
    FileInfoCache.get extract attributes entries path =
      { value := entry.value, entries := entries, extractCalls := [] } := by
  unfold FileInfoCache.get
  simp [hattr, hlook, hsize, htime]

theorem FileInfoCache.get_stored {T : Type} (extract : String → T)
    (attributes : FileAttributes) (entries : List (CacheEntry T)) (path : String)
    (stamp : FileStamp) (hattr : attributes path = some stamp) :
    ∃ entry,
      CacheEntry.lookup (FileInfoCache.get extract attributes entries path).entries path
        = some entry ∧
      entry.value = (FileInfoCache.get extract attributes entries path).value ∧
      entry.fileSize = stamp.fileSize ∧ entry.fileModTime = stamp.fileModTime ∧
      (FileInfoCache.get extract attributes entries path).extractCalls.length ≤ 1 := by
  unfold FileInfoCache.get
  simp only [hattr]
  cases hlook : CacheEntry.lookup entries path with
  | none =>
    exact ⟨_, CacheEntry.lookup_store entries
      { key := path, value := extract path
      , fileSize := stamp.fileSize, fileModTime := stamp.fileModTime }, rfl, rfl, rfl,
      Nat.le_refl 1⟩
  | some entry =>
    by_cases hstamp : entry.fileSize = stamp.fileSize ∧ entry.fileModTime = stamp.fileModTime
    · simp only [hstamp, and_self, if_true]
      exact ⟨entry, hlook, rfl, hstamp.1, hstamp.2, Nat.zero_le 1⟩
    · simp only [hstamp, if_false]
      exact ⟨_, CacheEntry.lookup_store entries
        { key := path, value := extract path
        , fileSize := stamp.fileSize, fileModTime := stamp.fileModTime }, rfl, rfl, rfl,
        Nat.le_refl 1⟩

/-! ## What the reader returns -/

theorem getResource_lpData (os : WinApi) (hExeModule lpType : Nat) (resData : VersionData) :
    (getResource os hExeModule lpType).1.lpData = some resData ↔
      os.FindResource hExeModule 1 lpType ≠ 0 ∧
      os.LoadResource hExeModule (os.FindResource hExeModule 1 lpType) ≠ 0 ∧
      os.LockResource (os.LoadResource hExeModule (os.FindResource hExeModule 1 lpType))
        = some resData ∧
      os.SizeofResource hExeModule (os.FindResource hExeModule 1 lpType) ≠ 0 := by
  unfold getResource
  simp only []
  by_cases hfind : os.FindResource hExeModule 1 lpType = 0
  · simp [hfind]
  · by_cases hload : os.LoadResource hExeModule (os.FindResource hExeModule 1 lpType) = 0
    · simp [hfind, hload]
    · by_cases hsize : os.SizeofResource hExeModule (os.FindResource hExeModule 1 lpType) = 0
      · simp [hfind, hload, hsize]
      · cases hlock : os.LockResource
            (os.LoadResource hExeModule (os.FindResource hExeModule 1 lpType)) with
        | none => simp [hfind, hload, hsize]
        | some d => simp [hfind, hload, hsize]

theorem read_of_not_opened (os : WinApi) (filePath : String)
    (hopen : os.LoadLibraryEx filePath = 0) :
    readVersionInfoUsingWinAPI os filePath =
      ({ status := ReadStatus.CantOpen },
        [ApiCall.LoadLibraryEx filePath, ApiCall.GetLastError]) := by
  simp [readVersionInfoUsingWinAPI, hopen]

theorem read_of_no_data (os : WinApi) (filePath : String)
    (hopen : os.LoadLibraryEx filePath ≠ 0)
    (hdata : (getResource os (os.LoadLibraryEx filePath) RT_VERSION).1.lpData = none) :
    (readVersionInfoUsingWinAPI os filePath).1 = { status := ReadStatus.InfoNotPresent } := by
  unfold readVersionInfoUsingWinAPI
  simp only [hopen, if_false]
  split
  · rfl
  · rename_i d hd
    rw [hdata] at hd
    cases hd

theorem read_of_data (os : WinApi) (filePath : String) (resData : VersionData)
    (hopen : os.LoadLibraryEx filePath ≠ 0)
    (hdata : (getResource os (os.LoadLibraryEx filePath) RT_VERSION).1.lpData = some resData) :
    (readVersionInfoUsingWinAPI os filePath).1 =
      { (extractVersionInfo resData {}).1 with status := ReadStatus.Success } := by
  unfold readVersionInfoUsingWinAPI
  simp only [hopen, if_false]
  split
  · rename_i hd
    rw [hdata] at hd
    cases hd
  · rename_i d hd
    rw [hdata] at hd
    cases hd
    rfl

theorem getResource_lpData_none (os : WinApi) (hExeModule lpType : Nat)
    (h : os.FindResource hExeModule 1 lpType = 0 ∨
      os.LoadResource hExeModule (os.FindResource hExeModule 1 lpType) = 0 ∨
      os.LockResource (os.LoadResource hExeModule (os.FindResource hExeModule 1 lpType))
        = none ∨
      os.SizeofResource hExeModule (os.FindResource hExeModule 1 lpType) = 0) :
    (getResource os hExeModule lpType).1.lpData = none := by
  cases hdata : (getResource os hExeModule lpType).1.lpData with
  | none => rfl
  | some resData =>
    obtain ⟨hfind, hload, hlock, hsize⟩ := (getResource_lpData os hExeModule lpType resData).1 hdata
    rcases h with h | h | h | h
    · exact absurd h hfind
    · exact absurd h hload
    · rw [hlock] at h
      cases h
    · exact absurd h hsize

theorem read_status_cases (os : WinApi) (filePath : String) :
    (readVersionInfoUsingWinAPI os filePath).1.status = ReadStatus.CantOpen ∨
      (readVersionInfoUsingWinAPI os filePath).1.status = ReadStatus.InfoNotPresent ∨
      (readVersionInfoUsingWinAPI os filePath).1.status = ReadStatus.Success := by
  by_cases hopen : os.LoadLibraryEx filePath = 0
  · rw [read_of_not_opened os filePath hopen]
    exact Or.inl rfl
  · cases hdata : (getResource os (os.LoadLibraryEx filePath) RT_VERSION).1.lpData with
    | none =>
      rw [read_of_no_data os filePath hopen hdata]
      exact Or.inr (Or.inl rfl)
    | some resData =>
      rw [read_of_data os filePath resData hopen hdata]
      exact Or.inr (Or.inr rfl)

/-! ## Claims -/

/-- C1: for every pair of 32-bit fields `dwFileVersionMS = A`, `dwFileVersionLS = B` of a
fixed-file-info block that passes validation, `extractVersionInfo` decodes the version
major = A / 2^16, minor = A mod 2^16, patch = B / 2^16, build = B mod 2^16, each at most
65535. -/
theorem extractVersionInfo_decodes_version (resData : VersionData) (verInfo : ExeVersionInfo)
    (info : VS_FIXEDFILEINFO)
    (hok : resData.root.ok = true) (hbuf : resData.root.lplpBuffer = some info)
    (hlen : sizeof_VS_FIXEDFILEINFO ≤ resData.root.puLen)
    (hsig : info.dwSignature = 0xFEEF04BD)
    (hMS : info.dwFileVersionMS < 2 ^ 32) (hLS : info.dwFileVersionLS < 2 ^ 32) :
    (extractVersionInfo resData verInfo).1.version =
        { major := info.dwFileVersionMS / 2 ^ 16, minor := info.dwFileVersionMS % 2 ^ 16
        , patch := info.dwFileVersionLS / 2 ^ 16, build := info.dwFileVersionLS % 2 ^ 16 } ∧
      (extractVersionInfo resData verInfo).1.version.major ≤ 65535 ∧
      (extractVersionInfo resData verInfo).1.version.minor ≤ 65535 ∧
      (extractVersionInfo resData verInfo).1.version.patch ≤ 65535 ∧
      (extractVersionInfo resData verInfo).1.version.build ≤ 65535 := by
  have hver : (extractVersionInfo resData verInfo).1.version =
      { major := info.dwFileVersionMS / 2 ^ 16, minor := info.dwFileVersionMS % 2 ^ 16
      , patch := info.dwFileVersionLS / 2 ^ 16, build := info.dwFileVersionLS % 2 ^ 16 } := by
    rw [extractVersionInfo_version, getRawVersionInfo_valid resData info hok hbuf hlen hsig]
    exact decodeVersion_eq info hMS hLS
  rw [hver]
  refine ⟨rfl, ?_, ?_, ?_, ?_⟩ <;> simp only [] <;> omega

/-- C1 at the fields `0x00010002` and `0x00030004`: the decoded version is (1, 2, 3, 4). -/
theorem extractVersionInfo_decodes_version_witness :
    (extractVersionInfo sampleData {}).1.version =
        { major := 1, minor := 2, patch := 3, build := 4 } ∧
      (extractVersionInfo sampleData {}).1.version.major ≤ 65535 ∧
      (extractVersionInfo sampleData {}).1.version.minor ≤ 65535 ∧
      (extractVersionInfo sampleData {}).1.version.patch ≤ 65535 ∧
      (extractVersionInfo sampleData {}).1.version.build ≤ 65535 :=
  extractVersionInfo_decodes_version sampleData {}
    { dwSignature := 0xFEEF04BD, dwFileVersionMS := 0x00010002, dwFileVersionLS := 0x00030004 }
    rfl rfl (by decide) rfl (by decide) (by decide)

/-- C2: for every file that opens but in which the version resource (type `RT_VERSION`,
identifier 1) is not found, `readVersionInfoUsingWinAPI` returns status `InfoNotPresent`
with an empty appName, an empty description and version (0, 0, 0, 0), and so neither
`InvalidFormat` nor any other status. -/
theorem read_resource_not_found (os : WinApi) (filePath : String)
    (hopen : os.LoadLibraryEx filePath ≠ 0)
    (hfind : os.FindResource (os.LoadLibraryEx filePath) 1 RT_VERSION = 0) :
    (readVersionInfoUsingWinAPI os filePath).1 =
        { appName := "", description := ""
        , version := { major := 0, minor := 0, patch := 0, build := 0 }
        , status := ReadStatus.InfoNotPresent } ∧
      (readVersionInfoUsingWinAPI os filePath).1.status ≠ ReadStatus.InvalidFormat := by
  have hdata : (getResource os (os.LoadLibraryEx filePath) RT_VERSION).1.lpData = none := by
    simp [getResource, hfind]
  rw [read_of_no_data os filePath hopen hdata]
  exact ⟨rfl, by decide⟩

/-- C2 at a file that opens and has no version resource. -/
theorem read_resource_not_found_witness :
    (readVersionInfoUsingWinAPI noResourceOs "C:\\gzdoom.exe").1 =
        { appName := "", description := ""
        , version := { major := 0, minor := 0, patch := 0, build := 0 }
        , status := ReadStatus.InfoNotPresent } ∧
      (readVersionInfoUsingWinAPI noResourceOs "C:\\gzdoom.exe").1.status
        ≠ ReadStatus.InvalidFormat :=
  read_resource_not_found noResourceOs "C:\\gzdoom.exe" (by decide) (by decide)

/-- C3: for every path whose opening fails (`LoadLibraryEx` returns null),
`readVersionInfoUsingWinAPI` returns status `CantOpen` with appName, description and
version at their defaults, and calls nothing but `LoadLibraryEx` and `GetLastError`: no
resource lookup, no version query. -/
theorem read_open_failure (os : WinApi) (filePath : String)
    (hopen : os.LoadLibraryEx filePath = 0) :
    (readVersionInfoUsingWinAPI os filePath).1 =
        { appName := "", description := ""
        , version := { major := 0, minor := 0, patch := 0, build := 0 }
        , status := ReadStatus.CantOpen } ∧
      (readVersionInfoUsingWinAPI os filePath).2 =
        [ApiCall.LoadLibraryEx filePath, ApiCall.GetLastError] := by
  rw [read_of_not_opened os filePath hopen]
  exact ⟨rfl, rfl⟩

/-- C3 at a path that cannot be opened. -/
theorem read_open_failure_witness :
    (readVersionInfoUsingWinAPI (sampleOs sampleData) "C:\\missing.exe").1 =
        { appName := "", description := ""
        , version := { major := 0, minor := 0, patch := 0, build := 0 }
        , status := ReadStatus.CantOpen } ∧
      (readVersionInfoUsingWinAPI (sampleOs sampleData) "C:\\missing.exe").2 =
        [ApiCall.LoadLibraryEx "C:\\missing.exe", ApiCall.GetLastError] :=
  read_open_failure (sampleOs sampleData) "C:\\missing.exe" (by decide)

/-- C4: for every file that opens and whose version resource loads, the reader returns
status `Success`; and, the strings being looked up under the first translation entry, a
`ProductName` (a `FileDescription`) whose query fails or gives a null or empty buffer is
returned as the empty string, while a second file that differs from the first only in the
answer to that one query has the same other string and the same version. -/
theorem read_optional_strings (os : WinApi) (filePath : String) (resData : VersionData)
    (hopen : os.LoadLibraryEx filePath ≠ 0)
    (hdata : (getResource os (os.LoadLibraryEx filePath) RT_VERSION).1.lpData = some resData) :
    (readVersionInfoUsingWinAPI os filePath).1.status = ReadStatus.Success ∧
    ∀ langs : Nat → LangInfo,
      resData.translation.ok = true → resData.translation.lplpBuffer = some langs →
      sizeof_LangInfo ≤ resData.translation.puLen →
      (((resData.value (subBlockName (langs 0) "ProductName")).ok = false ∨
          (resData.value (subBlockName (langs 0) "ProductName")).lplpBuffer = none ∨
          (resData.value (subBlockName (langs 0) "ProductName")).puLen = 0) →
        (readVersionInfoUsingWinAPI os filePath).1.appName = "") ∧
      (((resData.value (subBlockName (langs 0) "FileDescription")).ok = false ∨
          (resData.value (subBlockName (langs 0) "FileDescription")).lplpBuffer = none ∨
          (resData.value (subBlockName (langs 0) "FileDescription")).puLen = 0) →
        (readVersionInfoUsingWinAPI os filePath).1.description = "") ∧
      ∀ (os' : WinApi) (filePath' : String) (resData' : VersionData),
        os'.LoadLibraryEx filePath' ≠ 0 →
        (getResource os' (os'.LoadLibraryEx filePath') RT_VERSION).1.lpData = some resData' →
        resData'.root = resData.root → resData'.translation = resData.translation →
        ((∀ sub, sub ≠ subBlockName (langs 0) "ProductName" →
            resData'.value sub = resData.value sub) →
          (readVersionInfoUsingWinAPI os' filePath').1.description
              = (readVersionInfoUsingWinAPI os filePath).1.description ∧
            (readVersionInfoUsingWinAPI os' filePath').1.version
              = (readVersionInfoUsingWinAPI os filePath).1.version) ∧
        ((∀ sub, sub ≠ subBlockName (langs 0) "FileDescription" →
            resData'.value sub = resData.value sub) →
          (readVersionInfoUsingWinAPI os' filePath').1.appName
              = (readVersionInfoUsingWinAPI os filePath).1.appName ∧
            (readVersionInfoUsingWinAPI os' filePath').1.version
              = (readVersionInfoUsingWinAPI os filePath).1.version) := by
  rw [read_of_data os filePath resData hopen hdata]
  refine ⟨rfl, ?_⟩
  intro langs hok hbuf hlen
  have hstr := extractVersionInfo_strings resData {} langs hok hbuf hlen
  refine ⟨?_, ?_, ?_⟩
  · intro hfail
    show (extractVersionInfo resData {}).1.appName = ""
    rw [hstr.1]
    exact getVerInfoValue_unusable resData (langs 0) "ProductName" hfail
  · intro hfail
    show (extractVersionInfo resData {}).1.description = ""
    rw [hstr.2]
    exact getVerInfoValue_unusable resData (langs 0) "FileDescription" hfail
  · intro os' filePath' resData' hopen' hdata' hroot htr
    rw [read_of_data os' filePath' resData' hopen' hdata']
    have hstr' := extractVersionInfo_strings resData' {} langs (by rw [htr]; exact hok)
      (by rw [htr]; exact hbuf) (by rw [htr]; exact hlen)
    have hver : (extractVersionInfo resData' {}).1.version
        = (extractVersionInfo resData {}).1.version := by
      rw [extractVersionInfo_version, extractVersionInfo_version,
        getRawVersionInfo_congr resData resData' hroot]
    refine ⟨?_, ?_⟩
    · intro hsame
      refine ⟨?_, hver⟩
      show (extractVersionInfo resData' {}).1.description
        = (extractVersionInfo resData {}).1.description
      rw [hstr'.2, hstr.2, getVerInfoValue_congr resData resData' (langs 0) "FileDescription"
        (hsame _ (subBlockName_ne (langs 0) _ _ (by decide)))]
    · intro hsame
      refine ⟨?_, hver⟩
      show (extractVersionInfo resData' {}).1.appName
        = (extractVersionInfo resData {}).1.appName
      rw [hstr'.1, hstr.1, getVerInfoValue_congr resData resData' (langs 0) "ProductName"
        (hsame _ (subBlockName_ne (langs 0) _ _ (by decide)))]

/-- C4 at a file whose version resource has no `ProductName`: the status is `Success` and
the name is empty. -/
theorem read_optional_strings_witness :
    (readVersionInfoUsingWinAPI (sampleOs noNameData) "C:\\gzdoom.exe").1.status
        = ReadStatus.Success ∧
      (readVersionInfoUsingWinAPI (sampleOs noNameData) "C:\\gzdoom.exe").1.appName = "" :=
  have h := read_optional_strings (sampleOs noNameData) "C:\\gzdoom.exe" noNameData
    (by decide) rfl
  ⟨h.1, (h.2 (fun i => if i = 0 then ⟨0x0409, 0x04b0⟩ else ⟨0x0405, 0x04e2⟩)
    rfl rfl (by decide)).1 (Or.inl rfl)⟩

/-- C5: in the build that is not for Windows, `readExeVersionInfo` returns status
`NotSupported` with an empty appName, an empty description and version 0.0.0.0 for every
path, without any call into the operating system; the result is the same whatever the
path and the state of the system, so any two calls return equal values. -/
theorem readExeVersionInfo_not_supported (os os' : WinApi) (filePath filePath' : String) :
    (readExeVersionInfo false os filePath).1 =
        { appName := "", description := ""
        , version := { major := 0, minor := 0, patch := 0, build := 0 }
        , status := ReadStatus.NotSupported } ∧
      (readExeVersionInfo false os filePath).2 = [] ∧
      readExeVersionInfo false os filePath = readExeVersionInfo false os' filePath' :=
  ⟨rfl, rfl, rfl⟩

/-- C6: for every path and every outcome of the open, resource-find, resource-load and
version-query operations, in the Windows build and in the other one, the status of the
value returned by `readExeVersionInfo` is never `Uninitialized`. -/
theorem readExeVersionInfo_never_uninitialized (IS_WINDOWS : Bool) (os : WinApi)
    (filePath : String) :
    (readExeVersionInfo IS_WINDOWS os filePath).1.status ≠ ReadStatus.Uninitialized := by
  cases IS_WINDOWS
  · simp [readExeVersionInfo]
  · unfold readExeVersionInfo
    simp only [if_true]
    by_cases hopen : os.LoadLibraryEx filePath = 0
    · rw [read_of_not_opened os filePath hopen]
      simp
    · cases hdata : (getResource os (os.LoadLibraryEx filePath) RT_VERSION).1.lpData with
      | none =>
        rw [read_of_no_data os filePath hopen hdata]
        simp
      | some resData =>
        rw [read_of_data os filePath resData hopen hdata]
        simp

/-- C7: for every string that is not one of the names of the table `ReadStatusStrings`
(compared exactly, so case-sensitively), `statusFromStr` returns `Uninitialized`; for every
string of the table it returns the status whose integer value is the index of the string;
so the value it returns is always the value of an enumerator. -/
theorem statusFromStr_table (statusStr : String) :
    (statusStr ∉ ReadStatusStrings →
        statusFromStr statusStr = some ReadStatus.Uninitialized) ∧
      (∀ (i : Nat) (h : i < ReadStatusStrings.length),
        ReadStatusStrings.get ⟨i, h⟩ = statusStr →
        ∃ status, statusFromStr statusStr = some status ∧ status.toOrdinal = i) ∧
      ∃ status, statusFromStr statusStr = some status := by
  by_cases hmem : statusStr ∈ ReadStatusStrings
  · refine ⟨fun hnot => absurd hmem hnot, ?_, ?_⟩
    · intro i h heq
      subst heq
      have h5 : i < 5 := h
      interval_cases i
      · exact ⟨ReadStatus.Success, rfl, rfl⟩
      · exact ⟨ReadStatus.CantOpen, rfl, rfl⟩
      · exact ⟨ReadStatus.FailedToRead, rfl, rfl⟩
      · exact ⟨ReadStatus.InvalidFormat, rfl, rfl⟩
      · exact ⟨ReadStatus.InfoNotPresent, rfl, rfl⟩
    · simp only [ReadStatusStrings, List.mem_cons, List.mem_singleton, List.not_mem_nil,
        or_false] at hmem
      rcases hmem with h | h | h | h | h <;> subst h
      · exact ⟨ReadStatus.Success, by decide⟩
      · exact ⟨ReadStatus.CantOpen, by decide⟩
      · exact ⟨ReadStatus.FailedToRead, by decide⟩
      · exact ⟨ReadStatus.InvalidFormat, by decide⟩
      · exact ⟨ReadStatus.InfoNotPresent, by decide⟩
  · have hnone : List.indexOf? statusStr ReadStatusStrings = none := by
      rw [List.indexOf?_eq_none_iff]
      intro x hx hbeq
      exact hmem (by rw [← eq_of_beq hbeq]; exact hx)
    have hunit : statusFromStr statusStr = some ReadStatus.Uninitialized := by
      simp [statusFromStr, statusFromStrOrd, find, hnone, ReadStatus.toOrdinal,
        ReadStatus.ofOrdinal?]
    refine ⟨fun _ => hunit, ?_, ⟨_, hunit⟩⟩
    intro i h heq
    exact absurd (heq ▸ List.get_mem ReadStatusStrings i h) hmem

/-- C7 at the empty string, at `"<invalid>"`, at a name in the wrong case and at a name of
the table. -/
theorem statusFromStr_table_witness :
    statusFromStr "" = some ReadStatus.Uninitialized ∧
      statusFromStr "<invalid>" = some ReadStatus.Uninitialized ∧
      statusFromStr "cantopen" = some ReadStatus.Uninitialized ∧
      ∃ status, statusFromStr "InvalidFormat" = some status ∧ status.toOrdinal = 3 :=
  ⟨(statusFromStr_table "").1 (by decide),
    (statusFromStr_table "<invalid>").1 (by decide),
    (statusFromStr_table "cantopen").1 (by decide),
    (statusFromStr_table "InvalidFormat").2.1 3 (by decide) rfl⟩

/-- C8 as stated fails at the status `NotSupported`: it has no entry in
`ReadStatusStrings`, so `statusToStr` gives `"<invalid>"`, the same text as for
`Uninitialized`, and `statusFromStr` reads that text back as `Uninitialized`. -/
theorem statusToStr_loses_NotSupported :
    statusToStr ReadStatus.NotSupported = "<invalid>" ∧
      statusFromStr (statusToStr ReadStatus.NotSupported) = some ReadStatus.Uninitialized ∧
      statusFromStr (statusToStr ReadStatus.NotSupported) ≠ some ReadStatus.NotSupported ∧
      statusToStr ReadStatus.NotSupported = statusToStr ReadStatus.Uninitialized ∧
      ReadStatus.NotSupported ≠ ReadStatus.Uninitialized := by
  decide

/-- C8 as amended: for every status other than `NotSupported`,
`statusFromStr(statusToStr(s)) = s`; `NotSupported` is written as `"<invalid>"` and read
back as `Uninitialized`; and `statusToStr` gives two distinct statuses distinct texts
unless they are `NotSupported` and `Uninitialized`, the two written as `"<invalid>"`. -/
theorem statusFromStr_statusToStr (s t : ReadStatus) :
    (s ≠ ReadStatus.NotSupported → statusFromStr (statusToStr s) = some s) ∧
      (s = ReadStatus.NotSupported →
        statusFromStr (statusToStr s) = some ReadStatus.Uninitialized) ∧
      (statusToStr s = statusToStr t →
        s = t ∨
          (s = ReadStatus.NotSupported ∧ t = ReadStatus.Uninitialized) ∨
          (s = ReadStatus.Uninitialized ∧ t = ReadStatus.NotSupported)) ∧
      ((s = ReadStatus.NotSupported ∨ s = ReadStatus.Uninitialized) →
        statusToStr s = "<invalid>") := by
  cases s <;> cases t <;> decide

/-- C8 as amended, at `InfoNotPresent`, which is read back, and at `Uninitialized`, which
is written as `"<invalid>"` and read back as well. -/
theorem statusFromStr_statusToStr_witness :
    statusFromStr (statusToStr ReadStatus.InfoNotPresent) = some ReadStatus.InfoNotPresent ∧
      statusFromStr (statusToStr ReadStatus.Uninitialized) = some ReadStatus.Uninitialized ∧
      statusToStr ReadStatus.Uninitialized = "<invalid>" :=
  ⟨(statusFromStr_statusToStr ReadStatus.InfoNotPresent ReadStatus.Success).1 (by decide),
    (statusFromStr_statusToStr ReadStatus.Uninitialized ReadStatus.Success).1 (by decide),
    (statusFromStr_statusToStr ReadStatus.Uninitialized ReadStatus.Success).2.2.2
      (Or.inr rfl)⟩

/-- C9 as stated fails: a version resource that loads, whose fixed-file-info block
carries the signature 0 and not `0xFEEF04BD`, is read with status `Success`. -/
theorem read_bad_signature_is_success :
    (getResource (sampleOs badSignatureData)
        ((sampleOs badSignatureData).LoadLibraryEx "C:\\gzdoom.exe") RT_VERSION).1.lpData.isSome
        = true ∧
      (∃ info, badSignatureData.root.lplpBuffer = some info ∧ info.dwSignature ≠ 0xFEEF04BD) ∧
      (getRawVersionInfo badSignatureData).1 = none ∧
      (readVersionInfoUsingWinAPI (sampleOs badSignatureData) "C:\\gzdoom.exe").1 =
        { appName := "GZDoom", description := "An engine"
        , version := { major := 0, minor := 0, patch := 0, build := 0 }
        , status := ReadStatus.Success } :=
  ⟨rfl, ⟨_, rfl, by decide⟩, rfl, by decide⟩

/-- C9 as amended: for every version resource that loads, the status is `Success`; when
the fixed-file-info block is missing, shorter than the fixed structure, or carries a
signature other than `0xFEEF04BD`, no version is decoded from it and the version stays
0.0.0.0; when the block is valid, the version is the one decoded from it; and a result
with status `Success` always comes from a version resource that loaded. -/
theorem read_fixed_info (os : WinApi) (filePath : String) :
    (∀ resData : VersionData, os.LoadLibraryEx filePath ≠ 0 →
      (getResource os (os.LoadLibraryEx filePath) RT_VERSION).1.lpData = some resData →
      (readVersionInfoUsingWinAPI os filePath).1.status = ReadStatus.Success ∧
      ((resData.root.ok = false ∨ resData.root.lplpBuffer = none ∨
          resData.root.puLen < sizeof_VS_FIXEDFILEINFO ∨
          ∃ info, resData.root.lplpBuffer = some info ∧ info.dwSignature ≠ 0xFEEF04BD) →
        (readVersionInfoUsingWinAPI os filePath).1.version =
          { major := 0, minor := 0, patch := 0, build := 0 }) ∧
      ∀ info, resData.root.ok = true → resData.root.lplpBuffer = some info →
        sizeof_VS_FIXEDFILEINFO ≤ resData.root.puLen → info.dwSignature = 0xFEEF04BD →
        (readVersionInfoUsingWinAPI os filePath).1.version = decodeVersion info) ∧
      ((readVersionInfoUsingWinAPI os filePath).1.status = ReadStatus.Success →
        os.LoadLibraryEx filePath ≠ 0 ∧
        ∃ resData,
          (getResource os (os.LoadLibraryEx filePath) RT_VERSION).1.lpData = some resData) := by
  constructor
  · intro resData hopen hdata
    rw [read_of_data os filePath resData hopen hdata]
    refine ⟨rfl, ?_, ?_⟩
    · intro hbad
      show (extractVersionInfo resData {}).1.version = _
      rw [extractVersionInfo_version, getRawVersionInfo_invalid resData hbad]
    · intro info hok hbuf hlen hsig
      show (extractVersionInfo resData {}).1.version = _
      rw [extractVersionInfo_version, getRawVersionInfo_valid resData info hok hbuf hlen hsig]
  · intro hsucc
    by_cases hopen : os.LoadLibraryEx filePath = 0
    · rw [read_of_not_opened os filePath hopen] at hsucc
      cases hsucc
    · refine ⟨hopen, ?_⟩
      cases hdata : (getResource os (os.LoadLibraryEx filePath) RT_VERSION).1.lpData with
      | none =>
        rw [read_of_no_data os filePath hopen hdata] at hsucc
        cases hsucc
      | some resData => exact ⟨resData, rfl⟩

/-- C9 as amended, at the resource whose block carries the signature 0. -/
theorem read_fixed_info_witness :
    (readVersionInfoUsingWinAPI (sampleOs badSignatureData) "C:\\gzdoom.exe").1.status
        = ReadStatus.Success ∧
      (readVersionInfoUsingWinAPI (sampleOs badSignatureData) "C:\\gzdoom.exe").1.version =
        { major := 0, minor := 0, patch := 0, build := 0 } :=
  have h := (read_fixed_info (sampleOs badSignatureData) "C:\\gzdoom.exe").1 badSignatureData
    (by decide) rfl
  ⟨h.1, h.2.1 (Or.inr (Or.inr (Or.inr ⟨_, rfl, by decide⟩)))⟩

/-- C10 as stated fails: a file that opens, whose version resource is found and cannot be
loaded, is read with status `InfoNotPresent`, which is neither `InvalidFormat` nor
`FailedToRead`. -/
theorem read_load_failure_is_not_present :
    loadFailsOs.LoadLibraryEx "C:\\gzdoom.exe" ≠ 0 ∧
      loadFailsOs.FindResource (loadFailsOs.LoadLibraryEx "C:\\gzdoom.exe") 1 RT_VERSION ≠ 0 ∧
      loadFailsOs.LoadResource (loadFailsOs.LoadLibraryEx "C:\\gzdoom.exe")
        (loadFailsOs.FindResource (loadFailsOs.LoadLibraryEx "C:\\gzdoom.exe") 1 RT_VERSION)
        = 0 ∧
      (readExeVersionInfo true loadFailsOs "C:\\gzdoom.exe").1.status
        = ReadStatus.InfoNotPresent ∧
      (readExeVersionInfo true loadFailsOs "C:\\gzdoom.exe").1.status
        ≠ ReadStatus.InvalidFormat ∧
      (readExeVersionInfo true loadFailsOs "C:\\gzdoom.exe").1.status
        ≠ ReadStatus.FailedToRead := by
  decide

/-- C10 as amended: in the Windows build, `readExeVersionInfo` returns `CantOpen` for
every file that cannot be loaded (`LoadLibraryEx` returns null) and `InfoNotPresent` for
every file that opens and whose version resource is found but cannot be loaded or locked,
or has size zero; in no build does it return `InvalidFormat` or `FailedToRead`. -/
theorem readExeVersionInfo_malformed (os : WinApi) (filePath : String) :
    (os.LoadLibraryEx filePath = 0 →
        (readExeVersionInfo true os filePath).1.status = ReadStatus.CantOpen) ∧
      (os.LoadLibraryEx filePath ≠ 0 →
        os.FindResource (os.LoadLibraryEx filePath) 1 RT_VERSION ≠ 0 →
        (os.LoadResource (os.LoadLibraryEx filePath)
            (os.FindResource (os.LoadLibraryEx filePath) 1 RT_VERSION) = 0 ∨
          os.LockResource (os.LoadResource (os.LoadLibraryEx filePath)
            (os.FindResource (os.LoadLibraryEx filePath) 1 RT_VERSION)) = none ∨
          os.SizeofResource (os.LoadLibraryEx filePath)
            (os.FindResource (os.LoadLibraryEx filePath) 1 RT_VERSION) = 0) →
        (readExeVersionInfo true os filePath).1.status = ReadStatus.InfoNotPresent) ∧
      ∀ IS_WINDOWS : Bool,
        (readExeVersionInfo IS_WINDOWS os filePath).1.status ≠ ReadStatus.InvalidFormat ∧
        (readExeVersionInfo IS_WINDOWS os filePath).1.status ≠ ReadStatus.FailedToRead := by
  refine ⟨?_, ?_, ?_⟩
  · intro hopen
    simp only [readExeVersionInfo, if_true]
    rw [read_of_not_opened os filePath hopen]
  · intro hopen _ hfail
    simp only [readExeVersionInfo, if_true]
    rw [read_of_no_data os filePath hopen
      (getResource_lpData_none os _ RT_VERSION (Or.inr hfail))]
  · intro IS_WINDOWS
    cases IS_WINDOWS
    · simp [readExeVersionInfo]
    · simp only [readExeVersionInfo, if_true]
      rcases read_status_cases os filePath with h | h | h <;> rw [h] <;> simp

/-- C10 as amended, at the file whose version resource is found and cannot be loaded. -/
theorem readExeVersionInfo_malformed_witness :
    (readExeVersionInfo true loadFailsOs "C:\\gzdoom.exe").1.status
      = ReadStatus.InfoNotPresent :=
  (readExeVersionInfo_malformed loadFailsOs "C:\\gzdoom.exe").2.1 (by decide) (by decide)
    (Or.inl (by decide))

/-- C13: for every version resource that loads and whose translation table has at least
one complete entry (4 bytes or more), appName and description are the values looked up
under `\StringFileInfo\`, the language and the code page of the first entry as four
hexadecimal digits each, `\ProductName` and `\FileDescription`; a second resource that
differs only in the entries after the first (and in their number) is read to the same
result; and when the table is absent or shorter than 4 bytes both strings stay empty. -/
theorem read_first_translation (os : WinApi) (filePath : String) (resData : VersionData)
    (hopen : os.LoadLibraryEx filePath ≠ 0)
    (hdata : (getResource os (os.LoadLibraryEx filePath) RT_VERSION).1.lpData = some resData) :
    (∀ langs : Nat → LangInfo,
      resData.translation.ok = true → resData.translation.lplpBuffer = some langs →
      sizeof_LangInfo ≤ resData.translation.puLen →
      (langs 0).language < 65536 → (langs 0).codePage < 65536 →
      (readVersionInfoUsingWinAPI os filePath).1.appName
          = queriedText (resData.value (stringFileInfoPath (langs 0) "ProductName")) ∧
        (readVersionInfoUsingWinAPI os filePath).1.description
          = queriedText (resData.value (stringFileInfoPath (langs 0) "FileDescription"))) ∧
      (∀ langs : Nat → LangInfo,
        resData.translation.ok = true → resData.translation.lplpBuffer = some langs →
        sizeof_LangInfo ≤ resData.translation.puLen →
        ∀ (os' : WinApi) (filePath' : String) (resData' : VersionData)
          (langs' : Nat → LangInfo),
          os'.LoadLibraryEx filePath' ≠ 0 →
          (getResource os' (os'.LoadLibraryEx filePath') RT_VERSION).1.lpData = some resData' →
          resData'.root = resData.root → resData'.value = resData.value →
          resData'.translation.ok = true → resData'.translation.lplpBuffer = some langs' →
          sizeof_LangInfo ≤ resData'.translation.puLen →
          langs' 0 = langs 0 →
          (readVersionInfoUsingWinAPI os' filePath').1
            = (readVersionInfoUsingWinAPI os filePath).1) ∧
      ((resData.translation.ok = false ∨ resData.translation.lplpBuffer = none ∨
          resData.translation.puLen < sizeof_LangInfo) →
        (readVersionInfoUsingWinAPI os filePath).1.appName = "" ∧
          (readVersionInfoUsingWinAPI os filePath).1.description = "") := by
  rw [read_of_data os filePath resData hopen hdata]
  refine ⟨?_, ?_, ?_⟩
  · intro langs hok hbuf hlen hlang hpage
    have hstr := extractVersionInfo_strings resData {} langs hok hbuf hlen
    constructor
    · show (extractVersionInfo resData {}).1.appName = _
      rw [hstr.1]
      exact getVerInfoValue_word resData (langs 0) "ProductName" hlang hpage (by decide)
    · show (extractVersionInfo resData {}).1.description = _
      rw [hstr.2]
      exact getVerInfoValue_word resData (langs 0) "FileDescription" hlang hpage (by decide)
  · intro langs hok hbuf hlen os' filePath' resData' langs' hopen' hdata' hroot hval hok' hbuf'
      hlen' hfirst
    rw [read_of_data os' filePath' resData' hopen' hdata']
    have hstr := extractVersionInfo_strings resData {} langs hok hbuf hlen
    have hstr' := extractVersionInfo_strings resData' {} langs' hok' hbuf' hlen'
    apply ExeVersionInfo.eq_of_fields
    · show (extractVersionInfo resData' {}).1.appName = (extractVersionInfo resData {}).1.appName
      rw [hstr'.1, hstr.1, hfirst]
      exact congrArg Prod.fst
        (getVerInfoValue_congr resData resData' (langs 0) "ProductName" (by rw [hval]))
    · show (extractVersionInfo resData' {}).1.description
        = (extractVersionInfo resData {}).1.description
      rw [hstr'.2, hstr.2, hfirst]
      exact congrArg Prod.fst
        (getVerInfoValue_congr resData resData' (langs 0) "FileDescription" (by rw [hval]))
    · show (extractVersionInfo resData' {}).1.version = (extractVersionInfo resData {}).1.version
      rw [extractVersionInfo_version, extractVersionInfo_version,
        getRawVersionInfo_congr resData resData' hroot]
    · rfl
  · intro habsent
    exact extractVersionInfo_no_table resData {} habsent

/-- C13 at the sample resource, whose table has the entries 0409/04b0 and 0405/04e2: the
strings are the ones under `\StringFileInfo\040904b0\`, the resource with the first entry
alone is read to the same result, and the resource without a table has empty strings. -/
theorem read_first_translation_witness :
    ((readVersionInfoUsingWinAPI (sampleOs sampleData) "C:\\gzdoom.exe").1.appName
          = queriedText (sampleData.value (stringFileInfoPath ⟨0x0409, 0x04b0⟩ "ProductName")) ∧
        (readVersionInfoUsingWinAPI (sampleOs sampleData) "C:\\gzdoom.exe").1.description
          = queriedText
              (sampleData.value (stringFileInfoPath ⟨0x0409, 0x04b0⟩ "FileDescription"))) ∧
      (readVersionInfoUsingWinAPI (sampleOs oneTranslationData) "C:\\gzdoom.exe").1
        = (readVersionInfoUsingWinAPI (sampleOs sampleData) "C:\\gzdoom.exe").1 ∧
      ((readVersionInfoUsingWinAPI (sampleOs noTableData) "C:\\gzdoom.exe").1.appName = "" ∧
        (readVersionInfoUsingWinAPI (sampleOs noTableData) "C:\\gzdoom.exe").1.description
          = "") :=
  have h := read_first_translation (sampleOs sampleData) "C:\\gzdoom.exe" sampleData
    (by decide) rfl
  ⟨h.1 (fun i => if i = 0 then ⟨0x0409, 0x04b0⟩ else ⟨0x0405, 0x04e2⟩) rfl rfl (by decide)
      (by decide) (by decide),
    h.2.1 (fun i => if i = 0 then ⟨0x0409, 0x04b0⟩ else ⟨0x0405, 0x04e2⟩) rfl rfl (by decide)
      (sampleOs oneTranslationData) "C:\\gzdoom.exe" oneTranslationData
      (fun _ => ⟨0x0409, 0x04b0⟩) (by decide) rfl rfl rfl rfl rfl (by decide) rfl,
    (read_first_translation (sampleOs noTableData) "C:\\gzdoom.exe" noTableData
      (by decide) rfl).2.2 (Or.inl rfl)⟩

/-- C11: for every read result, whatever its status, with version numbers of 16 bits,
`serialize` sets the keys `app_name`, `description` and `version` of the object it is
given, the version as the text `major.minor.patch.build`, and `deserialize` applied to
that object yields the same appName, description and version. -/
theorem serialize_deserialize (info : ExeVersionInfo) (jsExeInfo : QJsonObject)
    (hmajor : info.version.major < 65536) (hminor : info.version.minor < 65536)
    (hpatch : info.version.patch < 65536) (hbuild : info.version.build < 65536) :
    (info.toExeVersionInfo_.serialize jsExeInfo).get? "app_name"
        = some (QJsonValue.string info.appName) ∧
      (info.toExeVersionInfo_.serialize jsExeInfo).get? "description"
        = some (QJsonValue.string info.description) ∧
      (info.toExeVersionInfo_.serialize jsExeInfo).get? "version"
        = some (QJsonValue.string info.version.toString) ∧
      ExeVersionInfo_.deserialize (info.toExeVersionInfo_.serialize jsExeInfo)
        = info.toExeVersionInfo_ := by
  have hname : (info.toExeVersionInfo_.serialize jsExeInfo).get? "app_name"
      = some (QJsonValue.string info.appName) := by
    unfold ExeVersionInfo_.serialize
    simp only []
    rw [QJsonObject.get?_set_other _ "version" "app_name" _ (by decide),
      QJsonObject.get?_set_other _ "description" "app_name" _ (by decide),
      QJsonObject.get?_set_same]
  have hdesc : (info.toExeVersionInfo_.serialize jsExeInfo).get? "description"
      = some (QJsonValue.string info.description) := by
    unfold ExeVersionInfo_.serialize
    simp only []
    rw [QJsonObject.get?_set_other _ "version" "description" _ (by decide),
      QJsonObject.get?_set_same]
  have hver : (info.toExeVersionInfo_.serialize jsExeInfo).get? "version"
      = some (QJsonValue.string info.version.toString) := by
    unfold ExeVersionInfo_.serialize
    simp only []
    rw [QJsonObject.get?_set_same]
  refine ⟨hname, hdesc, hver, ?_⟩
  unfold ExeVersionInfo_.deserialize JsonObjectCtx.getString
  rw [hname, hdesc, hver]
  simp only []
  rw [Version.ofString_toString info.version hmajor hminor hpatch hbuild]

/-- C11 at a result with status `FailedToRead` and version 1.2.3.4, written into an object
that already has other keys: the version is stored as `"1.2.3.4"` and the three members
are read back. -/
theorem serialize_deserialize_witness :
    (sampleInfo.toExeVersionInfo_.serialize sampleJsObject).get? "app_name"
        = some (QJsonValue.string "GZDoom") ∧
      (sampleInfo.toExeVersionInfo_.serialize sampleJsObject).get? "description"
        = some (QJsonValue.string "An engine") ∧
      (sampleInfo.toExeVersionInfo_.serialize sampleJsObject).get? "version"
        = some (QJsonValue.string "1.2.3.4") ∧
      ExeVersionInfo_.deserialize (sampleInfo.toExeVersionInfo_.serialize sampleJsObject)
        = { appName := "GZDoom", description := "An engine"
          , version := { major := 1, minor := 2, patch := 3, build := 4 } } :=
  serialize_deserialize sampleInfo sampleJsObject (by decide) (by decide) (by decide)
    (by decide)

/-- C12: for every path whose file has the same size and modification time at two `get`
calls of `g_cachedExeInfo`, one after the other, the extraction function is called at most
once over both calls, not at all by the second, and the second call returns the value the
first one returned and left stored under the path, whatever the status of that value. -/
theorem g_cachedExeInfo_get_twice (IS_WINDOWS : Bool) (os os' : WinApi)
    (attributes attributes' : FileAttributes) (entries : List (CacheEntry ExeVersionInfo))
    (path : String) (stamp : FileStamp)
    (hfirst : attributes path = some stamp) (hsecond : attributes' path = some stamp) :
    (g_cachedExeInfo_get IS_WINDOWS os attributes entries path).extractCalls.length +
        (g_cachedExeInfo_get IS_WINDOWS os' attributes'
          (g_cachedExeInfo_get IS_WINDOWS os attributes entries path).entries
          path).extractCalls.length ≤ 1 ∧
      (g_cachedExeInfo_get IS_WINDOWS os' attributes'
        (g_cachedExeInfo_get IS_WINDOWS os attributes entries path).entries
        path).extractCalls = [] ∧
      (g_cachedExeInfo_get IS_WINDOWS os' attributes'
        (g_cachedExeInfo_get IS_WINDOWS os attributes entries path).entries path).value
        = (g_cachedExeInfo_get IS_WINDOWS os attributes entries path).value ∧
      (CacheEntry.lookup (g_cachedExeInfo_get IS_WINDOWS os attributes entries path).entries
          path).map CacheEntry.value
        = some (g_cachedExeInfo_get IS_WINDOWS os attributes entries path).value := by
  obtain ⟨entry, hlook, hvalue, hsize, htime, hcalls⟩ :=
    FileInfoCache.get_stored (fun filePath => (readExeVersionInfo IS_WINDOWS os filePath).1)
      attributes entries path stamp hfirst
  have hget := FileInfoCache.get_hit
    (fun filePath => (readExeVersionInfo IS_WINDOWS os' filePath).1) attributes'
    (FileInfoCache.get (fun filePath => (readExeVersionInfo IS_WINDOWS os filePath).1)
      attributes entries path).entries path stamp entry hsecond hlook hsize htime
  unfold g_cachedExeInfo_get
  rw [hget, hlook]
  refine ⟨?_, rfl, hvalue, ?_⟩
  · simpa using hcalls
  · simp [hvalue]

/-- C12 at a file that cannot be opened and whose attributes do not change: the first
`get` extracts once and stores the `CantOpen` result, the second returns it without
extracting. -/
theorem g_cachedExeInfo_get_twice_witness :
    (g_cachedExeInfo_get true (sampleOs sampleData) sampleAttributes [] "C:\\missing.exe"
        ).extractCalls.length +
        (g_cachedExeInfo_get true (sampleOs sampleData) sampleAttributes
          (g_cachedExeInfo_get true (sampleOs sampleData) sampleAttributes []
            "C:\\missing.exe").entries
          "C:\\missing.exe").extractCalls.length ≤ 1 ∧
      (g_cachedExeInfo_get true (sampleOs sampleData) sampleAttributes
        (g_cachedExeInfo_get true (sampleOs sampleData) sampleAttributes []
          "C:\\missing.exe").entries
        "C:\\missing.exe").extractCalls = [] ∧
      (g_cachedExeInfo_get true (sampleOs sampleData) sampleAttributes
        (g_cachedExeInfo_get true (sampleOs sampleData) sampleAttributes []
          "C:\\missing.exe").entries "C:\\missing.exe").value
        = (g_cachedExeInfo_get true (sampleOs sampleData) sampleAttributes []
            "C:\\missing.exe").value ∧
      (CacheEntry.lookup (g_cachedExeInfo_get true (sampleOs sampleData) sampleAttributes []
          "C:\\missing.exe").entries "C:\\missing.exe").map CacheEntry.value
        = some (g_cachedExeInfo_get true (sampleOs sampleData) sampleAttributes []
            "C:\\missing.exe").value :=
  g_cachedExeInfo_get_twice true (sampleOs sampleData) (sampleOs sampleData)
    sampleAttributes sampleAttributes [] "C:\\missing.exe"
    { fileSize := 100, fileModTime := 5 } rfl rfl

/-- C14: `EngineDialog::accept` closes the dialog as accepted (calls `QDialog::accept`,
after which the dialog is hidden with result `Accepted`) if and only if the name of the
engine is not empty, its path is not empty, the path is not an invalid file and the config
directory is not an invalid directory; in every other case it leaves the dialog as it
was, with the name, path, configDir and family of the engine unchanged. -/
theorem EngineDialog_accept_iff (isInvalidFile isInvalidDir : String → Bool)
    (unhighlightListItem : Engine → Engine) (self : EngineDialog) :
    (UiCall.QDialog_accept ∈
          (self.accept isInvalidFile isInvalidDir unhighlightListItem).2 ↔
        self.engine.name ≠ "" ∧ self.engine.path ≠ "" ∧
          isInvalidFile self.engine.path = false ∧
          isInvalidDir self.engine.configDir = false) ∧
      ((self.engine.name ≠ "" ∧ self.engine.path ≠ "" ∧
          isInvalidFile self.engine.path = false ∧
          isInvalidDir self.engine.configDir = false) →
        (self.accept isInvalidFile isInvalidDir unhighlightListItem).1.result
            = DialogCode.Accepted ∧
          (self.accept isInvalidFile isInvalidDir unhighlightListItem).1.visible = false) ∧
      (¬(self.engine.name ≠ "" ∧ self.engine.path ≠ "" ∧
          isInvalidFile self.engine.path = false ∧
          isInvalidDir self.engine.configDir = false) →
        (self.accept isInvalidFile isInvalidDir unhighlightListItem).1 = self ∧
          (self.accept isInvalidFile isInvalidDir unhighlightListItem).1.engine.name
            = self.engine.name ∧
          (self.accept isInvalidFile isInvalidDir unhighlightListItem).1.engine.path
            = self.engine.path ∧
          (self.accept isInvalidFile isInvalidDir unhighlightListItem).1.engine.configDir
            = self.engine.configDir ∧
          (self.accept isInvalidFile isInvalidDir unhighlightListItem).1.engine.family
            = self.engine.family) := by
  unfold EngineDialog.accept
  by_cases hname : self.engine.name = ""
  · simp [hname]
  · by_cases hpath : self.engine.path = ""
    · simp [hname, hpath]
    · cases hfile : isInvalidFile self.engine.path with
      | true => simp [hname, hpath, hfile]
      | false =>
        cases hdir : isInvalidDir self.engine.configDir with
        | true => simp [hname, hpath, hfile, hdir]
        | false => simp [hname, hpath, hfile, hdir, QDialog.accept]

/-- C14 at a dialog whose engine has no name: the dialog is not accepted and stays as it
was. -/
theorem EngineDialog_accept_iff_witness :
    UiCall.QDialog_accept ∉ (sampleDialog.accept (fun _ => false) (fun _ => false) id).2 ∧
      (sampleDialog.accept (fun _ => false) (fun _ => false) id).1 = sampleDialog :=
  have h := EngineDialog_accept_iff (fun _ => false) (fun _ => false) id sampleDialog
  ⟨fun hmem => (h.1.1 hmem).1 rfl, (h.2.2 (fun hvalid => hvalid.1 rfl)).1⟩

end DoomRunner
